import Mathlib

/-!
# Execution policies of `hpx/parallel/execution_policy.hpp`

A shallow embedding of the execution-policy classes, the traits over them and
the type-erased container `execution_policy`.

Conventions of the embedding.

* Every C++ class is a structure holding its data members; a derived class
  holds its base sub-object in the field `base`.
* Overloads of one C++ name get distinct Lean names:
  `operator()(task_execution_policy_tag)` is `call_task`,
  `operator()(std::size_t)` is `call_chunk_size`,
  `operator()(task_execution_policy_tag, std::size_t)` is `call_task_chunk_size`,
  `on(threads::executor const&)` is `on`,
  the member template `on(Executor&)` is `on_executor`.
* `std::size_t` values are natural numbers; the header never does arithmetic
  on a chunk size, it only stores and returns it.
* A member declared in a derived class hides every base-class member of the
  same name (C++ name lookup).  `any_policy` dispatches a call the way the
  static type does and yields `none` where the call has no viable member.
* The constructors of the four shim templates are private.  A call whose body
  names such a constructor from a class that is neither the shim
  specialisation itself nor one of its friends is ill-formed, and yields
  `none` as well.
-/

namespace std

/-- The exceptions of the standard library the sources throw or catch:
`std::bad_alloc`, `std::out_of_range`, and any other exception (numbered). -/
inductive exception
  | bad_alloc
  | out_of_range
  | other (n : Nat)
deriving DecidableEq, Repr

end std

namespace hpx

/-- Modelled from the spec: the scoped enumeration `launch` (declared in
`hpx/hpx_fwd.hpp`, which is not among the sources); the header only uses the
two enumerators `launch::async` and `launch::sync`. -/
inductive launch
  | async
  | sync
deriving DecidableEq, Repr

namespace threads

/-- Modelled from the spec: the class `threads::executor` (declared in
`hpx/runtime/threads/thread_executor.hpp`, which is not among the sources), a
handle to a thread executor.  `none` is the default-constructed (empty)
handle, `some n` a handle to the executor instance `n`. -/
structure executor where
  data : Option Nat
deriving DecidableEq, Repr

/-- The default constructor `threads::executor()`. -/
def executor.ctor : executor := ⟨none⟩

end threads

namespace parallel

/-- The tag type `task_execution_policy_tag`. -/
structure task_execution_policy_tag where
deriving DecidableEq, Repr

/-- The tag object `task`. -/
def task : task_execution_policy_tag := {}

/-- A reference `Executor&` held by a shim: the executor type `Executor` (the
template argument of the shim) and the identity of the referenced object. -/
structure executor_ref where
  Executor : Nat
  object : Nat
deriving DecidableEq, Repr

/-- What the member `executor()` returns a reference to: the function-local
static `exec` of one of the five non-template classes, or the object a shim
refers to. -/
inductive executor_object
  | sequential_task_execution_policy_exec
  | sequential_execution_policy_exec
  | parallel_task_execution_policy_exec
  | parallel_execution_policy_exec
  | parallel_vector_execution_policy_exec
  | ref (r : executor_ref)
deriving DecidableEq, Repr

/-! ## The policy classes: data members -/

/-- The class `sequential_task_execution_policy` (no data members). -/
structure sequential_task_execution_policy where
deriving DecidableEq, Repr

/-- The class template `sequential_task_execution_policy_shim<Executor>`: the
(empty) base and the member `Executor& exec_`. -/
structure sequential_task_execution_policy_shim where
  base : sequential_task_execution_policy
  exec_ : executor_ref
deriving DecidableEq, Repr

/-- The class `sequential_execution_policy` (no data members). -/
structure sequential_execution_policy where
deriving DecidableEq, Repr

/-- The class template `sequential_execution_policy_shim<Executor>`. -/
structure sequential_execution_policy_shim where
  base : sequential_execution_policy
  exec_ : executor_ref
deriving DecidableEq, Repr

/-- The class `parallel_task_execution_policy`: members `exec_` and
`chunk_size_`. -/
structure parallel_task_execution_policy where
  exec_ : threads.executor
  chunk_size_ : Nat
deriving DecidableEq, Repr

/-- The class template `parallel_task_execution_policy_shim<Executor>`: the
base sub-object and the member `Executor& exec_`. -/
structure parallel_task_execution_policy_shim where
  base : parallel_task_execution_policy
  exec_ : executor_ref
deriving DecidableEq, Repr

/-- The class `parallel_execution_policy`: members `exec_` and
`chunk_size_`. -/
structure parallel_execution_policy where
  exec_ : threads.executor
  chunk_size_ : Nat
deriving DecidableEq, Repr

/-- The class template `parallel_execution_policy_shim<Executor>`. -/
structure parallel_execution_policy_shim where
  base : parallel_execution_policy
  exec_ : executor_ref
deriving DecidableEq, Repr

/-- The class `parallel_vector_execution_policy` (no data members). -/
structure parallel_vector_execution_policy where
deriving DecidableEq, Repr

/-! ## `sequential_task_execution_policy` and its shim -/

/-- The static member `get_executor`: `return threads::executor();`. -/
def sequential_task_execution_policy.get_executor : threads.executor :=
  threads.executor.ctor

/-- The static member `get_chunk_size`: `return 0;`. -/
def sequential_task_execution_policy.get_chunk_size : Nat := 0

/-- The constructor `sequential_task_execution_policy() {}`. -/
def sequential_task_execution_policy.ctor : sequential_task_execution_policy := {}

/-- The object `seq_task`. -/
def seq_task : sequential_task_execution_policy :=
  sequential_task_execution_policy.ctor

/-- The private constructor `sequential_task_execution_policy_shim(Executor& exec)`. -/
def sequential_task_execution_policy_shim.ctor (exec : executor_ref) :
    sequential_task_execution_policy_shim :=
  ⟨sequential_task_execution_policy.ctor, exec⟩

/-- The member `operator()(task_execution_policy_tag)`: `return *this;`. -/
def sequential_task_execution_policy.call_task (self : sequential_task_execution_policy)
    (_tag : task_execution_policy_tag) : sequential_task_execution_policy :=
  self

/-- The member `on(threads::executor const&)`: the argument is ignored, `return *this;`. -/
def sequential_task_execution_policy.on (self : sequential_task_execution_policy)
    (_exec : threads.executor) : sequential_task_execution_policy :=
  self

/-- The member template `on(Executor& exec)`. -/
def sequential_task_execution_policy.on_executor (_self : sequential_task_execution_policy)
    (exec : executor_ref) : sequential_task_execution_policy_shim :=
  sequential_task_execution_policy_shim.ctor exec

/-- The member `executor()`: a reference to its function-local static. -/
def sequential_task_execution_policy.executor (_self : sequential_task_execution_policy) :
    executor_object :=
  executor_object.sequential_task_execution_policy_exec

/-- The static member `get_executor` the shim declares itself. -/
def sequential_task_execution_policy_shim.get_executor : threads.executor :=
  threads.executor.ctor

/-- The static member `get_chunk_size` the shim declares itself. -/
def sequential_task_execution_policy_shim.get_chunk_size : Nat := 0

/-- The member `operator()(task_execution_policy_tag)` of the shim: `return *this;`. -/
def sequential_task_execution_policy_shim.call_task
    (self : sequential_task_execution_policy_shim) (_tag : task_execution_policy_tag) :
    sequential_task_execution_policy_shim :=
  self

/-- The member template `on(Executor_& exec)` of the shim:
`return sequential_task_execution_policy_shim<Executor_>(exec);`.  The
constructor named is private and the shim over `Executor` is no friend of the
shim over another `Executor_`, so the call is well-formed only for an
executor of the type the shim is bound to. -/
def sequential_task_execution_policy_shim.on_executor
    (self : sequential_task_execution_policy_shim) (exec : executor_ref) :
    Option sequential_task_execution_policy_shim :=
  if exec.Executor = self.exec_.Executor then
    some (sequential_task_execution_policy_shim.ctor exec)
  else none

/-- The member `executor()` of the shim: `return exec_;`. -/
def sequential_task_execution_policy_shim.executor
    (self : sequential_task_execution_policy_shim) : executor_object :=
  executor_object.ref self.exec_

/-! ## `sequential_execution_policy` and its shim -/

/-- The constructor `sequential_execution_policy() {}`. -/
def sequential_execution_policy.ctor : sequential_execution_policy := {}

/-- The object `seq`. -/
def seq : sequential_execution_policy := sequential_execution_policy.ctor

/-- The static member `get_executor`. -/
def sequential_execution_policy.get_executor : threads.executor :=
  threads.executor.ctor

/-- The static member `get_chunk_size`. -/
def sequential_execution_policy.get_chunk_size : Nat := 0

/-- The private constructor `sequential_execution_policy_shim(Executor& exec)`. -/
def sequential_execution_policy_shim.ctor (exec : executor_ref) :
    sequential_execution_policy_shim :=
  ⟨sequential_execution_policy.ctor, exec⟩

/-- The member `operator()(task_execution_policy_tag)`: `return seq_task;`. -/
def sequential_execution_policy.call_task (_self : sequential_execution_policy)
    (_tag : task_execution_policy_tag) : sequential_task_execution_policy :=
  seq_task

/-- The member `on(threads::executor const&)`: the argument is ignored, `return *this;`. -/
def sequential_execution_policy.on (self : sequential_execution_policy)
    (_exec : threads.executor) : sequential_execution_policy :=
  self

/-- The member template `on(Executor& exec)`:
`return sequential_execution_policy_shim<Executor>(exec);`.  The constructor
named is private and `sequential_execution_policy_shim` declares no friend,
so every instantiation of this member is ill-formed. -/
def sequential_execution_policy.on_executor (_self : sequential_execution_policy)
    (_exec : executor_ref) : Option sequential_execution_policy_shim :=
  none

/-- The member `executor()`: a reference to its function-local static. -/
def sequential_execution_policy.executor (_self : sequential_execution_policy) :
    executor_object :=
  executor_object.sequential_execution_policy_exec

/-- The member `operator()(task_execution_policy_tag)` of the shim:
`return sequential_task_execution_policy_shim<Executor>(exec_);`. -/
def sequential_execution_policy_shim.call_task (self : sequential_execution_policy_shim)
    (_tag : task_execution_policy_tag) : sequential_task_execution_policy_shim :=
  sequential_task_execution_policy_shim.ctor self.exec_

/-- The member template `on(Executor_& exec)` of the shim:
`return sequential_execution_policy_shim<Executor_>(exec);`.  The constructor
named is private, so the call is well-formed only for an executor of the type
the shim is bound to.  (No member of another class can build a value of this
class to call it on.) -/
def sequential_execution_policy_shim.on_executor (self : sequential_execution_policy_shim)
    (exec : executor_ref) : Option sequential_execution_policy_shim :=
  if exec.Executor = self.exec_.Executor then
    some (sequential_execution_policy_shim.ctor exec)
  else none

/-- The member `executor()` of the shim: `return exec_;`. -/
def sequential_execution_policy_shim.executor (self : sequential_execution_policy_shim) :
    executor_object :=
  executor_object.ref self.exec_

/-! ## `parallel_task_execution_policy` and its shim -/

/-- The constructor `parallel_task_execution_policy() {}`.  Its member
initialiser list is empty: `exec_` is default-constructed and `chunk_size_`
(a `std::size_t`) is not initialised, so it keeps whatever the storage of the
object holds, here `storage_chunk_size_`. -/
def parallel_task_execution_policy.ctor (storage_chunk_size_ : Nat) :
    parallel_task_execution_policy :=
  ⟨threads.executor.ctor, storage_chunk_size_⟩

/-- The protected constructor `parallel_task_execution_policy(std::size_t chunk_size)`. -/
def parallel_task_execution_policy.ctor_chunk_size (chunk_size : Nat) :
    parallel_task_execution_policy :=
  ⟨threads.executor.ctor, chunk_size⟩

/-- The protected constructor
`parallel_task_execution_policy(threads::executor const& exec, std::size_t chunk_size)`. -/
def parallel_task_execution_policy.ctor_exec_chunk_size (exec : threads.executor)
    (chunk_size : Nat) : parallel_task_execution_policy :=
  ⟨exec, chunk_size⟩

/-- The object `par_task`, declared `static ... const` at namespace scope: an
object of static storage duration is zero-initialised before its constructor
runs. -/
def par_task : parallel_task_execution_policy :=
  parallel_task_execution_policy.ctor 0

/-- The private constructor
`parallel_task_execution_policy_shim(Executor& exec, std::size_t chunk_size)`. -/
def parallel_task_execution_policy_shim.ctor (exec : executor_ref) (chunk_size : Nat) :
    parallel_task_execution_policy_shim :=
  ⟨parallel_task_execution_policy.ctor_chunk_size chunk_size, exec⟩

/-- The member `get_executor`: `return exec_;`. -/
def parallel_task_execution_policy.get_executor (self : parallel_task_execution_policy) :
    threads.executor :=
  self.exec_

/-- The member `get_chunk_size`: `return chunk_size_;`. -/
def parallel_task_execution_policy.get_chunk_size (self : parallel_task_execution_policy) :
    Nat :=
  self.chunk_size_

/-- The member `on(threads::executor const& exec)`:
`return parallel_task_execution_policy(exec, chunk_size_);`. -/
def parallel_task_execution_policy.on (self : parallel_task_execution_policy)
    (exec : threads.executor) : parallel_task_execution_policy :=
  parallel_task_execution_policy.ctor_exec_chunk_size exec self.chunk_size_

/-- The member template `on(Executor& exec)`:
`return parallel_task_execution_policy_shim<Executor>(exec, chunk_size_);`. -/
def parallel_task_execution_policy.on_executor (self : parallel_task_execution_policy)
    (exec : executor_ref) : parallel_task_execution_policy_shim :=
  parallel_task_execution_policy_shim.ctor exec self.chunk_size_

/-- The member `operator()(std::size_t chunk_size)`:
`return parallel_task_execution_policy(exec_, chunk_size);`. -/
def parallel_task_execution_policy.call_chunk_size (self : parallel_task_execution_policy)
    (chunk_size : Nat) : parallel_task_execution_policy :=
  parallel_task_execution_policy.ctor_exec_chunk_size self.exec_ chunk_size

/-- The member `operator()(task_execution_policy_tag)`: `return *this;`. -/
def parallel_task_execution_policy.call_task (self : parallel_task_execution_policy)
    (_tag : task_execution_policy_tag) : parallel_task_execution_policy :=
  self

/-- The member `executor()`: a reference to its function-local static. -/
def parallel_task_execution_policy.executor (_self : parallel_task_execution_policy) :
    executor_object :=
  executor_object.parallel_task_execution_policy_exec

/-- The member `operator()(task_execution_policy_tag)` of the shim: `return *this;`. -/
def parallel_task_execution_policy_shim.call_task
    (self : parallel_task_execution_policy_shim) (_tag : task_execution_policy_tag) :
    parallel_task_execution_policy_shim :=
  self

/-- The member template `on(Executor_& exec)` of the shim:
`return parallel_task_execution_policy_shim<Executor_>(exec, this->get_chunk_size());`.
The constructor named is private and the shim over `Executor` is no friend of
the shim over another `Executor_`, so the call is well-formed only for an
executor of the type the shim is bound to. -/
def parallel_task_execution_policy_shim.on_executor
    (self : parallel_task_execution_policy_shim) (exec : executor_ref) :
    Option parallel_task_execution_policy_shim :=
  if exec.Executor = self.exec_.Executor then
    some (parallel_task_execution_policy_shim.ctor exec self.base.get_chunk_size)
  else none

/-- The member `executor()` of the shim: `return exec_;`. -/
def parallel_task_execution_policy_shim.executor
    (self : parallel_task_execution_policy_shim) : executor_object :=
  executor_object.ref self.exec_

/-! ## `parallel_execution_policy` and its shim -/

/-- The constructor `parallel_execution_policy() {}`.  Its member initialiser
list is empty: `exec_` is default-constructed and `chunk_size_` is not
initialised, so it keeps whatever the storage of the object holds, here
`storage_chunk_size_`. -/
def parallel_execution_policy.ctor (storage_chunk_size_ : Nat) :
    parallel_execution_policy :=
  ⟨threads.executor.ctor, storage_chunk_size_⟩

/-- The protected constructor
`parallel_execution_policy(threads::executor const& exec, std::size_t chunk_size)`. -/
def parallel_execution_policy.ctor_exec_chunk_size (exec : threads.executor)
    (chunk_size : Nat) : parallel_execution_policy :=
  ⟨exec, chunk_size⟩

/-- The protected constructor `parallel_execution_policy(std::size_t chunk_size)`. -/
def parallel_execution_policy.ctor_chunk_size (chunk_size : Nat) :
    parallel_execution_policy :=
  ⟨threads.executor.ctor, chunk_size⟩

/-- The object `par`, declared `static ... const` at namespace scope: an object
of static storage duration is zero-initialised before its constructor runs. -/
def par : parallel_execution_policy := parallel_execution_policy.ctor 0

/-- The private constructor
`parallel_execution_policy_shim(Executor& exec, std::size_t chunk_size)`. -/
def parallel_execution_policy_shim.ctor (exec : executor_ref) (chunk_size : Nat) :
    parallel_execution_policy_shim :=
  ⟨parallel_execution_policy.ctor_chunk_size chunk_size, exec⟩

/-- The member `get_executor`: `return exec_;`. -/
def parallel_execution_policy.get_executor (self : parallel_execution_policy) :
    threads.executor :=
  self.exec_

/-- The member `get_chunk_size`: `return chunk_size_;`. -/
def parallel_execution_policy.get_chunk_size (self : parallel_execution_policy) : Nat :=
  self.chunk_size_

/-- The member `on(threads::executor const& exec)`:
`return parallel_execution_policy(exec, chunk_size_);`. -/
def parallel_execution_policy.on (self : parallel_execution_policy)
    (exec : threads.executor) : parallel_execution_policy :=
  parallel_execution_policy.ctor_exec_chunk_size exec self.chunk_size_

/-- The member template `on(Executor& exec)`:
`return parallel_execution_policy_shim<Executor>(exec, this->get_chunk_size());`. -/
def parallel_execution_policy.on_executor (self : parallel_execution_policy)
    (exec : executor_ref) : parallel_execution_policy_shim :=
  parallel_execution_policy_shim.ctor exec self.get_chunk_size

/-- The member `operator()(std::size_t chunk_size)`:
`return parallel_execution_policy(exec_, chunk_size);`. -/
def parallel_execution_policy.call_chunk_size (self : parallel_execution_policy)
    (chunk_size : Nat) : parallel_execution_policy :=
  parallel_execution_policy.ctor_exec_chunk_size self.exec_ chunk_size

/-- The member `operator()(task_execution_policy_tag, std::size_t chunk_size)`:
`return par_task(chunk_size).on(exec_);`. -/
def parallel_execution_policy.call_task_chunk_size (self : parallel_execution_policy)
    (_tag : task_execution_policy_tag) (chunk_size : Nat) :
    parallel_task_execution_policy :=
  (par_task.call_chunk_size chunk_size).on self.exec_

/-- The member `operator()(task_execution_policy_tag)`:
`return par_task(chunk_size_).on(exec_);`. -/
def parallel_execution_policy.call_task (self : parallel_execution_policy)
    (_tag : task_execution_policy_tag) : parallel_task_execution_policy :=
  (par_task.call_chunk_size self.chunk_size_).on self.exec_

/-- The member `executor()`: a reference to its function-local static. -/
def parallel_execution_policy.executor (_self : parallel_execution_policy) :
    executor_object :=
  executor_object.parallel_execution_policy_exec

/-- The member template `on(Executor_& exec)` of the shim:
`return parallel_execution_policy_shim<Executor_>(exec, this->get_chunk_size());`.
The constructor named is private and its only friend is
`parallel_execution_policy`, so the call is well-formed only for an executor
of the type the shim is bound to. -/
def parallel_execution_policy_shim.on_executor (self : parallel_execution_policy_shim)
    (exec : executor_ref) : Option parallel_execution_policy_shim :=
  if exec.Executor = self.exec_.Executor then
    some (parallel_execution_policy_shim.ctor exec self.base.get_chunk_size)
  else none

/-- The member `operator()(std::size_t chunk_size)` of the shim:
`return parallel_execution_policy_shim(exec_, chunk_size);`. -/
def parallel_execution_policy_shim.call_chunk_size (self : parallel_execution_policy_shim)
    (chunk_size : Nat) : parallel_execution_policy_shim :=
  parallel_execution_policy_shim.ctor self.exec_ chunk_size

/-- The member `operator()(task_execution_policy_tag, std::size_t chunk_size)` of the shim:
`return parallel_task_execution_policy_shim<Executor>(exec_, chunk_size);`. -/
def parallel_execution_policy_shim.call_task_chunk_size
    (self : parallel_execution_policy_shim) (_tag : task_execution_policy_tag)
    (chunk_size : Nat) : parallel_task_execution_policy_shim :=
  parallel_task_execution_policy_shim.ctor self.exec_ chunk_size

/-- The member `operator()(task_execution_policy_tag)` of the shim:
`return parallel_task_execution_policy_shim<Executor>(exec_, this->get_chunk_size());`. -/
def parallel_execution_policy_shim.call_task (self : parallel_execution_policy_shim)
    (_tag : task_execution_policy_tag) : parallel_task_execution_policy_shim :=
  parallel_task_execution_policy_shim.ctor self.exec_ self.base.get_chunk_size

/-- The member `executor()` of the shim: `return exec_;`. -/
def parallel_execution_policy_shim.executor (self : parallel_execution_policy_shim) :
    executor_object :=
  executor_object.ref self.exec_

/-! ## `parallel_vector_execution_policy` -/

/-- The constructor `parallel_vector_execution_policy() {}`. -/
def parallel_vector_execution_policy.ctor : parallel_vector_execution_policy := {}

/-- The object `par_vec`. -/
def par_vec : parallel_vector_execution_policy := parallel_vector_execution_policy.ctor

/-- The static member `get_executor`. -/
def parallel_vector_execution_policy.get_executor : threads.executor :=
  threads.executor.ctor

/-- The static member `get_chunk_size`. -/
def parallel_vector_execution_policy.get_chunk_size : Nat := 0

/-- The member `operator()(task_execution_policy_tag)`: `return *this;`. -/
def parallel_vector_execution_policy.call_task (self : parallel_vector_execution_policy)
    (_tag : task_execution_policy_tag) : parallel_vector_execution_policy :=
  self

/-- The member `on(threads::executor const&)`: the argument is ignored, `return *this;`. -/
def parallel_vector_execution_policy.on (self : parallel_vector_execution_policy)
    (_exec : threads.executor) : parallel_vector_execution_policy :=
  self

/-- The member `executor()`: a reference to its function-local static. -/
def parallel_vector_execution_policy.executor (_self : parallel_vector_execution_policy) :
    executor_object :=
  executor_object.parallel_vector_execution_policy_exec

/-! ## Policy types and policy values -/

/-- The `std::type_info` of a policy class, as `typeid` yields it: one value
per non-template class and one per instance `shim<Executor>` of a shim
template. -/
inductive type_info
  | sequential_task_execution_policy
  | sequential_task_execution_policy_shim (Executor : Nat)
  | sequential_execution_policy
  | sequential_execution_policy_shim (Executor : Nat)
  | parallel_task_execution_policy
  | parallel_task_execution_policy_shim (Executor : Nat)
  | parallel_execution_policy
  | parallel_execution_policy_shim (Executor : Nat)
  | parallel_vector_execution_policy
deriving DecidableEq, Repr

/-- A value of one of the policy classes, together with its static type. -/
inductive any_policy
  | seq_task (p : sequential_task_execution_policy)
  | seq_task_shim (p : sequential_task_execution_policy_shim)
  | seq (p : sequential_execution_policy)
  | seq_shim (p : sequential_execution_policy_shim)
  | par_task (p : parallel_task_execution_policy)
  | par_task_shim (p : parallel_task_execution_policy_shim)
  | par (p : parallel_execution_policy)
  | par_shim (p : parallel_execution_policy_shim)
  | par_vec (p : parallel_vector_execution_policy)
deriving DecidableEq, Repr

/-- The `typeid` of the class of a policy value. -/
def any_policy.type : any_policy → type_info
  | .seq_task _ => type_info.sequential_task_execution_policy
  | .seq_task_shim p => type_info.sequential_task_execution_policy_shim p.exec_.Executor
  | .seq _ => type_info.sequential_execution_policy
  | .seq_shim p => type_info.sequential_execution_policy_shim p.exec_.Executor
  | .par_task _ => type_info.parallel_task_execution_policy
  | .par_task_shim p => type_info.parallel_task_execution_policy_shim p.exec_.Executor
  | .par _ => type_info.parallel_execution_policy
  | .par_shim p => type_info.parallel_execution_policy_shim p.exec_.Executor
  | .par_vec _ => type_info.parallel_vector_execution_policy

/-- The call `p(tag)`: every policy class declares
`operator()(task_execution_policy_tag)`. -/
def any_policy.call_task (p : any_policy) (tag : task_execution_policy_tag) : any_policy :=
  match p with
  | .seq_task q => .seq_task (q.call_task tag)
  | .seq_task_shim q => .seq_task_shim (q.call_task tag)
  | .seq q => .seq_task (q.call_task tag)
  | .seq_shim q => .seq_task_shim (q.call_task tag)
  | .par_task q => .par_task (q.call_task tag)
  | .par_task_shim q => .par_task_shim (q.call_task tag)
  | .par q => .par_task (q.call_task tag)
  | .par_shim q => .par_task_shim (q.call_task tag)
  | .par_vec q => .par_vec (q.call_task tag)

/-- The call `p(chunk_size)`.  `operator()(std::size_t)` is declared by
`parallel_task_execution_policy`, `parallel_execution_policy` and
`parallel_execution_policy_shim`.  The sequential and vector classes have no
such member.  `parallel_task_execution_policy_shim` declares only
`operator()(task_execution_policy_tag)`, which hides the operators of its
base, so the call has no viable candidate there. -/
def any_policy.call_chunk_size (p : any_policy) (chunk_size : Nat) : Option any_policy :=
  match p with
  | .par_task q => some (.par_task (q.call_chunk_size chunk_size))
  | .par q => some (.par (q.call_chunk_size chunk_size))
  | .par_shim q => some (.par_shim (q.call_chunk_size chunk_size))
  | .seq_task _ => none
  | .seq_task_shim _ => none
  | .seq _ => none
  | .seq_shim _ => none
  | .par_task_shim _ => none
  | .par_vec _ => none

/-- The call `p.on(exec)` selecting the overload `on(threads::executor const&)`.
The five non-template classes declare it; in a shim the member template `on`
hides it. -/
def any_policy.on (p : any_policy) (exec : threads.executor) : Option any_policy :=
  match p with
  | .seq_task q => some (.seq_task (q.on exec))
  | .seq q => some (.seq (q.on exec))
  | .par_task q => some (.par_task (q.on exec))
  | .par q => some (.par (q.on exec))
  | .par_vec q => some (.par_vec (q.on exec))
  | .seq_task_shim _ => none
  | .seq_shim _ => none
  | .par_task_shim _ => none
  | .par_shim _ => none

/-- The call `p.on(exec)` selecting the member template `on(Executor&)`.
Every class but `parallel_vector_execution_policy` declares it; the result is
`none` also where the instantiation is ill-formed: on
`sequential_execution_policy`, and on a shim for an executor of another type
than the one it is bound to. -/
def any_policy.on_executor (p : any_policy) (exec : executor_ref) : Option any_policy :=
  match p with
  | .seq_task q => some (.seq_task_shim (q.on_executor exec))
  | .seq_task_shim q => (q.on_executor exec).map any_policy.seq_task_shim
  | .seq q => (q.on_executor exec).map any_policy.seq_shim
  | .seq_shim q => (q.on_executor exec).map any_policy.seq_shim
  | .par_task q => some (.par_task_shim (q.on_executor exec))
  | .par_task_shim q => (q.on_executor exec).map any_policy.par_task_shim
  | .par q => some (.par_shim (q.on_executor exec))
  | .par_shim q => (q.on_executor exec).map any_policy.par_shim
  | .par_vec _ => none

/-- The call `p.get_chunk_size()`.  The sequential shims inherit (or repeat)
the static member of their base, the parallel shims inherit the member of
their base, which reads the `chunk_size_` of the base sub-object. -/
def any_policy.get_chunk_size : any_policy → Nat
  | .seq_task _ => sequential_task_execution_policy.get_chunk_size
  | .seq_task_shim _ => sequential_task_execution_policy_shim.get_chunk_size
  | .seq _ => sequential_execution_policy.get_chunk_size
  | .seq_shim _ => sequential_execution_policy.get_chunk_size
  | .par_task q => q.get_chunk_size
  | .par_task_shim q => q.base.get_chunk_size
  | .par q => q.get_chunk_size
  | .par_shim q => q.base.get_chunk_size
  | .par_vec _ => parallel_vector_execution_policy.get_chunk_size

/-- The call `p.get_executor()`, a `threads::executor`.  The parallel shims
inherit the member of their base, which reads the `exec_` of the base
sub-object. -/
def any_policy.get_executor : any_policy → threads.executor
  | .seq_task _ => sequential_task_execution_policy.get_executor
  | .seq_task_shim _ => sequential_task_execution_policy_shim.get_executor
  | .seq _ => sequential_execution_policy.get_executor
  | .seq_shim _ => sequential_execution_policy.get_executor
  | .par_task q => q.get_executor
  | .par_task_shim q => q.base.get_executor
  | .par q => q.get_executor
  | .par_shim q => q.base.get_executor
  | .par_vec _ => parallel_vector_execution_policy.get_executor

/-- The call `p.executor()`; every policy class declares `executor()`. -/
def any_policy.executor : any_policy → executor_object
  | .seq_task q => q.executor
  | .seq_task_shim q => q.executor
  | .seq q => q.executor
  | .seq_shim q => q.executor
  | .par_task q => q.executor
  | .par_task_shim q => q.executor
  | .par q => q.executor
  | .par_shim q => q.executor
  | .par_vec q => q.executor

/-! ## The traits -/

/-- The trait `detail::is_sequential_execution_policy<T>`: true for the four
specialisations, false for the primary template. -/
def detail.is_sequential_execution_policy : type_info → Bool
  | .sequential_task_execution_policy => true
  | .sequential_task_execution_policy_shim _ => true
  | .sequential_execution_policy => true
  | .sequential_execution_policy_shim _ => true
  | _ => false

/-- The trait `is_sequential_execution_policy<T>`; a `type_info` is a decayed
type already. -/
def is_sequential_execution_policy (T : type_info) : Bool :=
  detail.is_sequential_execution_policy T

/-- The trait `detail::is_async_execution_policy<T>`: true for the two
specialisations, false for the primary template. -/
def detail.is_async_execution_policy : type_info → Bool
  | .sequential_task_execution_policy => true
  | .parallel_task_execution_policy => true
  | _ => false

/-- The trait `is_async_execution_policy<T>`. -/
def is_async_execution_policy (T : type_info) : Bool :=
  detail.is_async_execution_policy T

/-- The trait `detail::is_parallel_execution_policy<T>`: true for the three
specialisations, false for the primary template. -/
def detail.is_parallel_execution_policy : type_info → Bool
  | .parallel_execution_policy => true
  | .parallel_vector_execution_policy => true
  | .parallel_task_execution_policy => true
  | _ => false

/-- The trait `is_parallel_execution_policy<T>`. -/
def is_parallel_execution_policy (T : type_info) : Bool :=
  detail.is_parallel_execution_policy T

/-- The class template `detail::extract_launch_policy<ExPolicy>`: the partial
specialisation enabled by `is_sequential_execution_policy<ExPolicy>` returns
`launch::sync`, the primary template returns `launch::async`. -/
def detail.extract_launch_policy.call (ExPolicy : type_info) : launch :=
  if is_sequential_execution_policy ExPolicy then launch.sync else launch.async

/-! ## The container `execution_policy` -/

/-- The class template `detail::execution_policy_shim<ExPolicy>`: the member
`ExPolicy policy_`; the template argument is the type of `policy_`. -/
structure detail.execution_policy_shim where
  policy_ : any_policy
deriving DecidableEq, Repr

/-- The member `type()`: `return typeid(ExPolicy);`. -/
def detail.execution_policy_shim.type (self : detail.execution_policy_shim) : type_info :=
  self.policy_.type

/-- The member `launch_policy()`:
`return extract_launch_policy<ExPolicy>::call();`. -/
def detail.execution_policy_shim.launch_policy (self : detail.execution_policy_shim) :
    launch :=
  detail.extract_launch_policy.call self.policy_.type

/-- The member `get()`: `return &policy_;`. -/
def detail.execution_policy_shim.get (self : detail.execution_policy_shim) : any_policy :=
  self.policy_

/-- The class `execution_policy`: the member `inner_`, a shared pointer to the
box; `none` is the null pointer. -/
structure execution_policy where
  inner_ : Option detail.execution_policy_shim
deriving DecidableEq, Repr

/-- The converting constructor `execution_policy(ExPolicy const& policy)`:
`inner_(boost::make_shared<detail::execution_policy_shim<ExPolicy>>(policy))`.
This is the container the constructor builds for a policy of each class; for
which classes the constructor can be instantiated is
`execution_policy.ctor_well_formed`. -/
def execution_policy.ctor (policy : any_policy) : execution_policy :=
  ⟨some ⟨policy⟩⟩

/-- Whether `execution_policy(ExPolicy const&)` is well-formed for the class of
`policy`.  Building the box instantiates its virtual member `on`, whose body
`policy_.on(exec)` passes a `threads::executor const&`.  The five
non-template classes have the overload `on(threads::executor const&)`.  On a
shim the call selects the member template with `Executor_` the type
`threads::executor const` and names the private constructor of the shim over
that type, which is ill-formed. -/
def execution_policy.ctor_well_formed : any_policy → Bool
  | .seq_task _ => true
  | .seq _ => true
  | .par_task _ => true
  | .par _ => true
  | .par_vec _ => true
  | .seq_task_shim _ => false
  | .seq_shim _ => false
  | .par_task_shim _ => false
  | .par_shim _ => false

/-- The member `make_async` of the box: `return policy_(tag);`, converted to
an `execution_policy`. -/
def detail.execution_policy_shim.make_async (self : detail.execution_policy_shim)
    (tag : task_execution_policy_tag) : execution_policy :=
  execution_policy.ctor (self.policy_.call_task tag)

/-- The member `operator()(task_execution_policy_tag tag)` of the container:
`return inner_->make_async(tag);`.  The result is `none` when `inner_` is
null (the dereference is undefined). -/
def execution_policy.call_task (self : execution_policy) (tag : task_execution_policy_tag) :
    Option execution_policy :=
  self.inner_.map (fun inner => inner.make_async tag)

/-- The member `launch_policy()` of the container:
`return inner_->launch_policy();`; `none` when `inner_` is null. -/
def execution_policy.launch_policy (self : execution_policy) : Option launch :=
  self.inner_.map (fun inner => inner.launch_policy)

/-- The member `type()` of the container: `return inner_->type();`; `none`
when `inner_` is null. -/
def execution_policy.type (self : execution_policy) : Option type_info :=
  self.inner_.map (fun inner => inner.type)

/-- The member template `get<ExPolicy>()` of the container: a null pointer
when `inner_->type() != typeid(ExPolicy)`, otherwise the pointer
`inner_->get()` to the stored policy.  The outer `none` stands for a null
`inner_`, the inner `none` for the null pointer returned. -/
def execution_policy.get (self : execution_policy) (ExPolicy : type_info) :
    Option (Option any_policy) :=
  self.inner_.map (fun inner => if inner.type ≠ ExPolicy then none else some inner.get)

/-! ## The vocabulary of the specification -/

/-- The five policy kinds the specification speaks of. -/
inductive PolicyKind
  | Sequential
  | SequentialAsync
  | Parallel
  | ParallelAsync
  | Vectorized
deriving DecidableEq, Repr

/-- The kind of a policy class: a class and the shims over it have the same
kind. -/
def type_info.kind : type_info → PolicyKind
  | .sequential_task_execution_policy => PolicyKind.SequentialAsync
  | .sequential_task_execution_policy_shim _ => PolicyKind.SequentialAsync
  | .sequential_execution_policy => PolicyKind.Sequential
  | .sequential_execution_policy_shim _ => PolicyKind.Sequential
  | .parallel_task_execution_policy => PolicyKind.ParallelAsync
  | .parallel_task_execution_policy_shim _ => PolicyKind.ParallelAsync
  | .parallel_execution_policy => PolicyKind.Parallel
  | .parallel_execution_policy_shim _ => PolicyKind.Parallel
  | .parallel_vector_execution_policy => PolicyKind.Vectorized

/-- The kind of a policy value. -/
def any_policy.kind (p : any_policy) : PolicyKind :=
  p.type.kind

/-- The class invariant of the shims over the parallel policies.  Their only
constructor builds the base sub-object by `base(chunk_size)`, so the `exec_`
of the base is the default-constructed thread executor.  The other classes
have no invariant. -/
def any_policy.invariant : any_policy → Bool
  | .par_task_shim q => q.base.exec_ == threads.executor.ctor
  | .par_shim q => q.base.exec_ == threads.executor.ctor
  | _ => true

/-! ## Sequences of operations -/

/-- The call `p(tag, chunk_size)`:
`operator()(task_execution_policy_tag, std::size_t)` is declared by
`parallel_execution_policy` and `parallel_execution_policy_shim` only. -/
def any_policy.call_task_chunk_size (p : any_policy) (tag : task_execution_policy_tag)
    (chunk_size : Nat) : Option any_policy :=
  match p with
  | .par q => some (.par_task (q.call_task_chunk_size tag chunk_size))
  | .par_shim q => some (.par_task_shim (q.call_task_chunk_size tag chunk_size))
  | .seq_task _ => none
  | .seq_task_shim _ => none
  | .seq _ => none
  | .seq_shim _ => none
  | .par_task _ => none
  | .par_task_shim _ => none
  | .par_vec _ => none

/-- One call on a policy value: any of the members that return a policy. -/
inductive policy_op
  | on (exec : threads.executor)
  | on_executor (exec : executor_ref)
  | call_chunk_size (chunk_size : Nat)
  | call_task (tag : task_execution_policy_tag)
  | call_task_chunk_size (tag : task_execution_policy_tag) (chunk_size : Nat)
deriving DecidableEq, Repr

/-- The result of one call; `none` where the class of `p` has no such member. -/
def any_policy.apply (p : any_policy) : policy_op → Option any_policy
  | .on exec => p.on exec
  | .on_executor exec => p.on_executor exec
  | .call_chunk_size chunk_size => p.call_chunk_size chunk_size
  | .call_task tag => some (p.call_task tag)
  | .call_task_chunk_size tag chunk_size => p.call_task_chunk_size tag chunk_size

/-- The result of a chain of calls `p.op1.op2...`, each applied to the result
of the one before. -/
def any_policy.apply_all (p : any_policy) : List policy_op → Option any_policy
  | [] => some p
  | op :: ops => (p.apply op).bind (fun q => q.apply_all ops)

/-! ## The container: rebinding -/

/-- The member `on` of the box: `return policy_.on(exec);`, converted to an
`execution_policy`.  The argument is a `threads::executor const&`; the result
is `none` where the class of `policy_` has no overload
`on(threads::executor const&)` to select. -/
def detail.execution_policy_shim.on (self : detail.execution_policy_shim)
    (exec : threads.executor) : Option execution_policy :=
  (self.policy_.on exec).map execution_policy.ctor

/-- The member `on(threads::executor exec)` of the container:
`return inner_->on(exec);`; `none` also when `inner_` is null. -/
def execution_policy.on (self : execution_policy) (exec : threads.executor) :
    Option execution_policy :=
  self.inner_.bind (fun inner => inner.on exec)

/-! ## Serialisation -/

/-- The member template `serialize(Archive& ar, unsigned)` of
`parallel_task_execution_policy`: `ar & chunk_size_;`.  The archive type is
the template parameter; `amp ar x` is its `ar & x` on a `std::size_t`,
yielding the archive afterwards and the value `x` has afterwards. -/
def parallel_task_execution_policy.serialize {Archive : Type}
    (amp : Archive → Nat → Archive × Nat) (self : parallel_task_execution_policy)
    (ar : Archive) (_version : Nat) : Archive × parallel_task_execution_policy :=
  ((amp ar self.chunk_size_).1, ⟨self.exec_, (amp ar self.chunk_size_).2⟩)

/-- The member template `serialize(Archive& ar, unsigned)` of
`parallel_execution_policy`: `ar & chunk_size_;`. -/
def parallel_execution_policy.serialize {Archive : Type}
    (amp : Archive → Nat → Archive × Nat) (self : parallel_execution_policy)
    (ar : Archive) (_version : Nat) : Archive × parallel_execution_policy :=
  ((amp ar self.chunk_size_).1, ⟨self.exec_, (amp ar self.chunk_size_).2⟩)

/-- A simulated output archive: the list of the values written so far. -/
abbrev output_archive := List Nat

/-- The operator `ar & x` of the simulated output archive: `x` is appended to
the data and left as it is. -/
def output_archive.amp (ar : output_archive) (x : Nat) : output_archive × Nat :=
  (ar ++ [x], x)

/-- A simulated input archive: the list of the values still to be read. -/
abbrev input_archive := List Nat

/-- The operator `ar & x` of the simulated input archive: the next value is
taken off the data and stored in `x`; an exhausted archive leaves `x`. -/
def input_archive.amp (ar : input_archive) (x : Nat) : input_archive × Nat :=
  match ar with
  | [] => ([], x)
  | y :: rest => (rest, y)

/-! ## The trait `is_execution_policy` -/

/-- A C++ type given to a trait: a policy class, the container
`execution_policy`, or any other type (numbered). -/
inductive cpp_type
  | policy (t : type_info)
  | execution_policy
  | other (n : Nat)
deriving DecidableEq, Repr

/-- The trait `detail::is_execution_policy<T>`: true for the ten
specialisations, false for the primary template. -/
def detail.is_execution_policy : cpp_type → Bool
  | .policy .parallel_execution_policy => true
  | .policy (.parallel_execution_policy_shim _) => true
  | .policy .parallel_vector_execution_policy => true
  | .policy .sequential_execution_policy => true
  | .policy (.sequential_execution_policy_shim _) => true
  | .policy .sequential_task_execution_policy => true
  | .policy (.sequential_task_execution_policy_shim _) => true
  | .policy .parallel_task_execution_policy => true
  | .policy (.parallel_task_execution_policy_shim _) => true
  | .execution_policy => true
  | .other _ => false

/-- The trait `is_execution_policy<T>`:
`detail::is_execution_policy<typename hpx::util::decay<T>::type>`.  The
metafunction `hpx::util::decay` (`hpx/util/decay.hpp`) is the parameter
`decay`. -/
def is_execution_policy (decay : cpp_type → cpp_type) (T : cpp_type) : Bool :=
  detail.is_execution_policy (decay T)

/-- The constraint of the converting constructor
`execution_policy(ExPolicy const& policy, typename std::enable_if<
is_execution_policy<ExPolicy>::value, ExPolicy>::type* = 0)`: the constructor
takes part in overload resolution exactly when this holds. -/
def execution_policy.ctor_enabled (decay : cpp_type → cpp_type) (ExPolicy : cpp_type) :
    Bool :=
  is_execution_policy decay ExPolicy

/-! ## The container: moving -/

/-- The move constructor `execution_policy(execution_policy && policy)`:
`inner_(std::move(policy.inner_))`.  Moving a shared pointer hands its pointer
over and leaves the source null.  The result is the constructed object and
`policy` afterwards. -/
def execution_policy.ctor_move (policy : execution_policy) :
    execution_policy × execution_policy :=
  (⟨policy.inner_⟩, ⟨none⟩)

/-- The move assignment `operator=(execution_policy && policy)`:
`if (this != &policy) inner_ = std::move(policy.inner_); return *this;`.
The flag `same_object` is `this == &policy`.  The result is `*this` afterwards
and `policy` afterwards. -/
def execution_policy.assign_move (self policy : execution_policy) (same_object : Bool) :
    execution_policy × execution_policy :=
  if same_object then (self, policy) else (⟨policy.inner_⟩, ⟨none⟩)

/-! ## The algorithm `for_each_n` and its test -/

/-- What the caller of a function observes: it returned a value, an exception
left it, or the program was terminated. -/
inductive call_result (α : Type)
  | returned (value : α)
  | raised (e : std.exception)
  | terminated
deriving DecidableEq, Repr

/-- Modelled from the spec: the pending-result handle `hpx::future<T>` an
algorithm returns under an asynchronous policy (`hpx/hpx.hpp` is not among the
sources).  A failure of the work is captured and attached to the handle: the
state is the value or the captured exception. -/
structure future (α : Type) where
  state : Except std.exception α

/-- Modelled from the spec: `future::get()`, where the caller observes the
handle: it returns the value or raises the captured failure. -/
def future.get {α : Type} (f : future α) : call_result α :=
  match f.state with
  | Except.ok v => call_result.returned v
  | Except.error e => call_result.raised e

/-- The iterator categories the test instantiates `test::test_iterator` with. -/
inductive iterator_tag
  | random_access_iterator_tag
  | forward_iterator_tag
  | input_iterator_tag
deriving DecidableEq, Repr

/-- What `for_each_n` returns: an iterator (the position reached) under a
synchronous policy, a future of one under an asynchronous policy. -/
inductive for_each_n.result
  | iterator (position : Nat)
  | future (f : future Nat)

/-- Modelled from the spec: the work of `hpx::parallel::for_each_n`
(`hpx/include/parallel_for_each.hpp` is not among the sources): `f(proj(x))`
for each of the first `count` elements of the sequence; a failure inside the
work ends it and is the failure of the work. -/
def for_each_n.loop (f : Nat → Except std.exception Unit) (proj : Nat → Nat) :
    List Nat → Nat → Except std.exception Unit
  | _, 0 => Except.ok ()
  | [], _ + 1 => Except.ok ()
  | x :: rest, count + 1 =>
    match f (proj x) with
    | Except.error e => Except.error e
    | Except.ok _ => for_each_n.loop f proj rest count

/-- Modelled from the spec: the outcome of the work of `for_each_n`: its
failure, or the position `count` reached. -/
def for_each_n.work (c : List Nat) (count : Nat) (f : Nat → Except std.exception Unit)
    (proj : Nat → Nat) : Except std.exception Nat :=
  match for_each_n.loop f proj c count with
  | Except.error e => Except.error e
  | Except.ok _ => Except.ok count

/-- Modelled from the spec: `hpx::parallel::for_each_n(policy, first, count,
f, proj)`.  Under a Sequential or Parallel policy a failure inside the work
propagates to the caller at the point of invocation; under a SequentialAsync
or ParallelAsync policy the call returns a pending-result handle at once and
the failure is attached to it; under a Vectorized policy a failure terminates
the program. -/
def for_each_n (policy : any_policy) (_tag : iterator_tag) (c : List Nat) (count : Nat)
    (f : Nat → Except std.exception Unit) (proj : Nat → Nat) :
    call_result for_each_n.result :=
  match policy.kind with
  | PolicyKind.Sequential | PolicyKind.Parallel =>
    match for_each_n.work c count f proj with
    | Except.ok position => call_result.returned (for_each_n.result.iterator position)
    | Except.error e => call_result.raised e
  | PolicyKind.SequentialAsync | PolicyKind.ParallelAsync =>
    call_result.returned (for_each_n.result.future ⟨for_each_n.work c count f proj⟩)
  | PolicyKind.Vectorized =>
    match for_each_n.work c count f proj with
    | Except.ok position => call_result.returned (for_each_n.result.iterator position)
    | Except.error _ => call_result.terminated

/-- The vector `c` of the tests: 10007 elements, filled by `std::iota` from
the value `rand` of `std::rand()`. -/
def test_vector (rand : Nat) : List Nat := List.range' rand 10007

/-- The test `test_for_each_n_bad_alloc(policy, IteratorTag, proj)`.  The
result lists the arguments of the `HPX_TEST` calls it runs, in order: the
`HPX_TEST(false)` after a normal return or in `catch(...)`, then
`HPX_TEST(caught_bad_alloc)`. -/
def test_for_each_n_bad_alloc (policy : any_policy) (tag : iterator_tag)
    (proj : Nat → Nat) (rand : Nat) : call_result (List Bool) :=
  match for_each_n policy tag (test_vector rand) (test_vector rand).length
      (fun _ => Except.error std.exception.bad_alloc) proj with
  | call_result.returned _ => call_result.returned [false, false]
  | call_result.raised std.exception.bad_alloc => call_result.returned [true]
  | call_result.raised _ => call_result.returned [false, false]
  | call_result.terminated => call_result.terminated

/-- The test `test_for_each_n_bad_alloc_async(p, IteratorTag, proj)`.  The
result lists the arguments of the `HPX_TEST` calls it runs, in order: the
`HPX_TEST(false)` after `f.get()` returned or in `catch(...)`, then
`HPX_TEST(caught_bad_alloc)` and `HPX_TEST(returned_from_algorithm)`.  Where
`for_each_n` returns an iterator the initialisation of the future `f` is
ill-formed and no check is listed. -/
def test_for_each_n_bad_alloc_async (p : any_policy) (tag : iterator_tag)
    (proj : Nat → Nat) (rand : Nat) : call_result (List Bool) :=
  match for_each_n p tag (test_vector rand) (test_vector rand).length
      (fun _ => Except.error std.exception.bad_alloc) proj with
  | call_result.returned (for_each_n.result.future f) =>
    match f.get with
    | call_result.returned _ => call_result.returned [false, false, true]
    | call_result.raised std.exception.bad_alloc => call_result.returned [true, true]
    | call_result.raised _ => call_result.returned [false, false, true]
    | call_result.terminated => call_result.terminated
  | call_result.returned (for_each_n.result.iterator _) => call_result.returned []
  | call_result.raised std.exception.bad_alloc => call_result.returned [true, false]
  | call_result.raised _ => call_result.returned [false, false, false]
  | call_result.terminated => call_result.terminated

/-- The driver `test_for_each_n_bad_alloc<IteratorTag, Proj>()`: the two
synchronous tests with `seq` and `par`, the two asynchronous tests with
`seq(task)` and `par(task)`; `r1` to `r4` are the values of `std::rand()`.
(The tests of `execution_policy` are compiled only under
`HPX_HAVE_GENERIC_EXECUTION_POLICY`.) -/
def test_for_each_n_bad_alloc_driver (tag : iterator_tag) (proj : Nat → Nat)
    (r1 r2 r3 r4 : Nat) : List (call_result (List Bool)) :=
  [test_for_each_n_bad_alloc (any_policy.seq seq) tag proj r1,
   test_for_each_n_bad_alloc (any_policy.par par) tag proj r2,
   test_for_each_n_bad_alloc_async (any_policy.seq_task (seq.call_task task)) tag proj r3,
   test_for_each_n_bad_alloc_async (any_policy.par_task (par.call_task task)) tag proj r4]

end parallel

end hpx

/-! # The sed expression parser of `libs/core/util/src/sed_transform.cpp` -/

namespace hpx.util

/-- The modulus of `std::string::size_type`, an unsigned 64-bit integer. -/
def size_type_modulus : Nat := 18446744073709551616

/-- The subtraction `a - b` of two `size_type` values, which wraps around. -/
def size_type_sub (a b : Nat) : Nat := (a + size_type_modulus - b) % size_type_modulus

/-- The addition `a + b` of two `size_type` values, which wraps around. -/
def size_type_add (a b : Nat) : Nat := (a + b) % size_type_modulus

/-- The member `std::string::at(pos)`: the character at `pos`, or the
exception `std::out_of_range` when `pos >= size()`.  A string is the list of
its characters. -/
def string_at (input : List Char) (pos : Nat) : Except std.exception Char :=
  match input[pos]? with
  | some c => Except.ok c
  | none => Except.error std.exception.out_of_range

/-- The member `std::string::substr(pos, count)`: the exception
`std::out_of_range` when `pos > size()`, otherwise the characters from `pos`
on, `count` of them or as many as there are. -/
def string_substr (input : List Char) (pos count : Nat) : Except std.exception (List Char) :=
  if pos > input.length then Except.error std.exception.out_of_range
  else Except.ok ((input.drop pos).take count)

/-- The loop `while (true)` of `parse_sed_expression`, entered with the
current value of `search_end`.  The result is `none` where the loop executes
`return false`, and the value of `search_end` after `--search_end; break;`.
The test `'/' == input.at(search_end)` is written out once for each way of
reaching it: after `search_end++` alone, and after the further `++search_end`
of an escape.  Neither increment can wrap: `search_end` is at most
`input.size() - 1` when they run. -/
def parse_sed_expression.scan (input : List Char) (search_end : Nat) :
    Except std.exception (Option Nat) :=
  if input.length - 1 < search_end then Except.ok none
  else
    match string_at input search_end with
    | Except.error e => Except.error e
    | Except.ok c =>
      if '\\' = c then
        if input.length - 1 < search_end + 2 then Except.ok none
        else
          match h : string_at input (search_end + 2) with
          | Except.error e => Except.error e
          | Except.ok d =>
            if '/' = d then Except.ok (some (search_end + 2 - 1))
            else parse_sed_expression.scan input (search_end + 2)
      else
        match h : string_at input (search_end + 1) with
        | Except.error e => Except.error e
        | Except.ok d =>
          if '/' = d then Except.ok (some (search_end + 1 - 1))
          else parse_sed_expression.scan input (search_end + 1)
termination_by input.length - search_end
decreasing_by
  all_goals
    simp only [string_at] at h
    split at h
    · rename_i c hc
      have hlt := (List.getElem?_eq_some_iff.mp hc).1
      omega
    · cases h

/-- The function `parse_sed_expression(input, search, replace)`.  The result
is the exception thrown, or the value returned together with `search` and
`replace` afterwards. -/
def parse_sed_expression (input search replace : List Char) :
    Except std.exception (Bool × List Char × List Char) :=
  if input.length ≤ 2 then pure (false, search, replace) else do
  let c0 ← string_at input 0
  if 's' ≠ c0 then pure (false, search, replace) else do
  let c1 ← string_at input 1
  if '/' ≠ c1 then pure (false, search, replace) else do
  let search_begin := 2
  let scanned ← parse_sed_expression.scan input search_begin
  match scanned with
  | none => pure (false, search, replace)
  | some search_end => do
    let c ← string_at input (search_end + 1)
    if '/' ≠ c then pure (false, search, replace) else do
    let replace_begin := search_end + 2
    let replace_end := input.length - 1
    let d ← string_at input replace_end
    let replace_end := if '/' = d then replace_end - 1 else replace_end
    let search ← string_substr input search_begin
      (size_type_add (size_type_sub search_end search_begin) 1)
    let replace ← string_substr input replace_begin
      (size_type_add (size_type_sub replace_end replace_begin) 1)
    pure (true, search, replace)

end hpx.util

/-! # Theorems -/

/-! ## The launch policy of a container -/

namespace hpx.parallel

/-- C1, as stated, fails: the container built from the object `par` holds a
policy of kind Parallel, yet its `launch_policy()` is `launch::async`, not
`launch::sync`. -/
theorem C1_launch_policy_counterexample :
    (any_policy.par par).kind = PolicyKind.Parallel ∧
    (execution_policy.ctor (any_policy.par par)).launch_policy = some launch.async ∧
    (execution_policy.ctor (any_policy.par par)).launch_policy ≠ some launch.sync := by
  decide

/-- C1, amended: for a container holding a policy of any class, with any chunk
size and any bound executor, `launch_policy()` returns `launch::sync` when the
boxed policy is Sequential or SequentialAsync and `launch::async` when it is
Parallel, ParallelAsync or Vectorized. -/
theorem C1_launch_policy (p : any_policy) :
    (execution_policy.ctor p).launch_policy =
      some (match p.kind with
        | PolicyKind.Sequential => launch.sync
        | PolicyKind.SequentialAsync => launch.sync
        | PolicyKind.Parallel => launch.async
        | PolicyKind.ParallelAsync => launch.async
        | PolicyKind.Vectorized => launch.async) := by
  cases p <;> rfl

/-- C2, as stated, fails: wrapping `seq` and applying the tag `task`, or
applying `task` to `seq` and wrapping the result, gives a container whose
`launch_policy()` is `launch::sync`, not `launch::async`. -/
theorem C2_seq_task_launch_policy_counterexample :
    ((execution_policy.ctor (any_policy.seq seq)).call_task task).bind
        execution_policy.launch_policy ≠ some launch.async ∧
    (execution_policy.ctor (any_policy.seq_task (seq.call_task task))).launch_policy ≠
        some launch.async := by
  decide

/-- C2, amended: wrapping `seq` and applying the tag `task`, and applying
`task` to `seq` and wrapping the result, yield the same container; it holds
the object `seq_task`, its type is `sequential_task_execution_policy` (for
which `is_async_execution_policy` is true) and its `launch_policy()` is
`launch::sync`. -/
theorem C2_seq_task_launch_policy :
    (execution_policy.ctor (any_policy.seq seq)).call_task task =
        some (execution_policy.ctor (any_policy.seq_task (seq.call_task task))) ∧
    execution_policy.ctor (any_policy.seq_task (seq.call_task task)) =
        execution_policy.ctor (any_policy.seq_task seq_task) ∧
    (execution_policy.ctor (any_policy.seq_task (seq.call_task task))).type =
        some type_info.sequential_task_execution_policy ∧
    is_async_execution_policy type_info.sequential_task_execution_policy = true ∧
    (execution_policy.ctor (any_policy.seq_task (seq.call_task task))).launch_policy =
        some launch.sync ∧
    ((execution_policy.ctor (any_policy.seq seq)).call_task task).bind
        execution_policy.launch_policy = some launch.sync := by
  decide

/-! ## The tag `task` -/

/-- C3: applying the tag `task` to a policy of any class gives a policy of
kind SequentialAsync from Sequential and from SequentialAsync, of kind
ParallelAsync from Parallel and from ParallelAsync, and of kind Vectorized
from Vectorized; a Vectorized policy is returned as it is. -/
theorem C3_call_task_kind (p : any_policy) :
    (p.call_task task).kind =
      (match p.kind with
        | PolicyKind.Sequential => PolicyKind.SequentialAsync
        | PolicyKind.SequentialAsync => PolicyKind.SequentialAsync
        | PolicyKind.Parallel => PolicyKind.ParallelAsync
        | PolicyKind.ParallelAsync => PolicyKind.ParallelAsync
        | PolicyKind.Vectorized => PolicyKind.Vectorized) ∧
    ∀ v : parallel_vector_execution_policy,
      (any_policy.par_vec v).kind = PolicyKind.Vectorized ∧
      (any_policy.par_vec v).call_task task = any_policy.par_vec v := by
  refine ⟨?_, fun v => ⟨rfl, rfl⟩⟩
  cases p <;> rfl

/-- C4: applying the tag `task` twice gives the same policy value as applying
it once, for a policy of any class, default, chunk-sized or executor-bound; in
particular the class, the kind, the chunk size and both executors agree. -/
theorem C4_call_task_idempotent (p : any_policy) :
    (p.call_task task).call_task task = p.call_task task ∧
    ((p.call_task task).call_task task).type = (p.call_task task).type ∧
    ((p.call_task task).call_task task).kind = (p.call_task task).kind ∧
    ((p.call_task task).call_task task).get_chunk_size = (p.call_task task).get_chunk_size ∧
    ((p.call_task task).call_task task).get_executor = (p.call_task task).get_executor ∧
    ((p.call_task task).call_task task).executor = (p.call_task task).executor := by
  have h : (p.call_task task).call_task task = p.call_task task := by
    cases p <;> rfl
  simp [h]

/-! ## The class invariant -/

/-- Every operation of the policy classes yields a value satisfying the class
invariant: the calls `p(N)` and `p.on(...)` always do, the call `p(tag)` does
when `p` does. -/
theorem any_policy.invariant_preserved (p : any_policy) (tag : task_execution_policy_tag)
    (N : Nat) (E : executor_ref) (e : threads.executor) :
    (p.invariant = true → (p.call_task tag).invariant = true) ∧
    (∀ q, p.call_chunk_size N = some q → q.invariant = true) ∧
    (∀ q, p.on_executor E = some q → q.invariant = true) ∧
    (∀ q, p.on e = some q → q.invariant = true) := by
  refine ⟨?_, ?_, ?_, ?_⟩
  · intro h
    cases p <;> first | rfl | exact h
  · intro q h
    cases p <;> simp [any_policy.call_chunk_size] at h <;> subst h <;> rfl
  · intro q h
    cases p <;>
      simp [any_policy.on_executor, sequential_execution_policy.on_executor,
        sequential_execution_policy_shim.on_executor,
        sequential_task_execution_policy_shim.on_executor,
        parallel_execution_policy_shim.on_executor,
        parallel_task_execution_policy_shim.on_executor] at h <;>
      first
        | (subst h; rfl)
        | (obtain ⟨_, h⟩ := h; subst h; rfl)
  · intro q h
    cases p <;> simp [any_policy.on] at h <;> subst h <;> rfl

/-! ## Chunk sizes -/

/-- C5, as stated, fails: `par_task.on(E)` is a ParallelAsync policy bound to
an executor, and the call `par_task.on(E)(4)` has no viable
`operator()(std::size_t)`, so there is no result reporting the chunk size 4. -/
theorem C5_call_chunk_size_counterexample :
    (any_policy.par_task_shim (par_task.on_executor ⟨0, 0⟩)).kind =
        PolicyKind.ParallelAsync ∧
    (any_policy.par_task_shim (par_task.on_executor ⟨0, 0⟩)).call_chunk_size 4 = none ∧
    ¬ ∃ q, (any_policy.par_task_shim (par_task.on_executor ⟨0, 0⟩)).call_chunk_size 4 =
        some q ∧ q.get_chunk_size = 4 := by
  decide

/-- C5, amended: for every policy of class `parallel_execution_policy`,
`parallel_task_execution_policy` or `parallel_execution_policy_shim`
(default, bound to a thread executor, bound to a custom executor, or already
chunk-sized) and every `N`, zero included, the call `p(N)` is available and
its result reports the chunk size exactly `N`; the other classes, among them
`parallel_task_execution_policy_shim`, offer no such call. -/
theorem C5_call_chunk_size (p : any_policy) (N : Nat) :
    (p.call_chunk_size N).map any_policy.get_chunk_size =
      (match p with
        | any_policy.par _ => some N
        | any_policy.par_task _ => some N
        | any_policy.par_shim _ => some N
        | _ => none) ∧
    (p.call_chunk_size N).map any_policy.type =
      (match p with
        | any_policy.par _ => some p.type
        | any_policy.par_task _ => some p.type
        | any_policy.par_shim _ => some p.type
        | _ => none) := by
  cases p <;> exact ⟨rfl, rfl⟩

/-- C6 fails on the default constructors: `parallel_execution_policy() {}`
and `parallel_task_execution_policy() {}` leave `chunk_size_` uninitialised,
so an object constructed in storage holding 7 reports the chunk size 7; only
the objects `par` and `par_task`, zero-initialised as objects of static
storage duration, report 0. -/
theorem C6_default_ctor_chunk_size :
    (parallel_execution_policy.ctor 7).get_chunk_size = 7 ∧
    (parallel_task_execution_policy.ctor 7).get_chunk_size = 7 ∧
    par.get_chunk_size = 0 ∧
    par_task.get_chunk_size = 0 := by
  decide

/-- C7, as stated, fails: `par_task.on(E)` is a ParallelAsync policy, and the
call `par_task.on(E)(8)` has no viable `operator()(std::size_t)`, so there is
no result with the executor of `par_task.on(E)`. -/
theorem C7_call_chunk_size_executor_counterexample :
    (any_policy.par_task_shim (par_task.on_executor ⟨1, 2⟩)).kind =
        PolicyKind.ParallelAsync ∧
    ¬ ∃ q, (any_policy.par_task_shim (par_task.on_executor ⟨1, 2⟩)).call_chunk_size 8 =
        some q ∧
      q.executor = (any_policy.par_task_shim (par_task.on_executor ⟨1, 2⟩)).executor := by
  decide

/-- C7, amended: for every policy `p` of class `parallel_execution_policy`,
`parallel_task_execution_policy` or `parallel_execution_policy_shim` and every
`N`, the call `p(N)` is available and `p(N)` has the executors of `p`: the
same `executor()` (the default executor of the class, or the custom executor
of a shim) and the same `get_executor()` (the thread executor given to `on`,
or the default one); the other classes offer no such call.  In particular
`par(4)` has chunk size 4, the default executor of `parallel_execution_policy`
and the default thread executor. -/
theorem C7_call_chunk_size_executor (p : any_policy) (N : Nat)
    (h : p.invariant = true) :
    ((p.call_chunk_size N).map any_policy.executor =
      (match p with
        | any_policy.par _ => some p.executor
        | any_policy.par_task _ => some p.executor
        | any_policy.par_shim _ => some p.executor
        | _ => none)) ∧
    ((p.call_chunk_size N).map any_policy.get_executor =
      (match p with
        | any_policy.par _ => some p.get_executor
        | any_policy.par_task _ => some p.get_executor
        | any_policy.par_shim _ => some p.get_executor
        | _ => none)) ∧
    (par.call_chunk_size 4).get_chunk_size = 4 ∧
    (par.call_chunk_size 4).executor = executor_object.parallel_execution_policy_exec ∧
    (par.call_chunk_size 4).get_executor = threads.executor.ctor := by
  cases p with
  | par_shim q =>
    have hq : q.base.exec_ = threads.executor.ctor := by
      simpa [any_policy.invariant] using h
    refine ⟨rfl, ?_, rfl, rfl, rfl⟩
    show some threads.executor.ctor = some q.base.exec_
    rw [hq]
  | _ => exact ⟨rfl, rfl, rfl, rfl, rfl⟩

/-- C7 at the policy `par.on(E)(2)`, a shim bound to a custom executor. -/
theorem C7_call_chunk_size_executor_witness :
    (any_policy.par_shim ((par.on_executor ⟨3, 5⟩).call_chunk_size 2)).invariant = true ∧
    ((any_policy.par_shim ((par.on_executor ⟨3, 5⟩).call_chunk_size 2)).call_chunk_size
        9).map any_policy.executor = some (executor_object.ref ⟨3, 5⟩) :=
  ⟨by decide,
    (C7_call_chunk_size_executor
      (any_policy.par_shim ((par.on_executor ⟨3, 5⟩).call_chunk_size 2)) 9 (by decide)).1⟩

/-! ## Rebinding the executor -/

/-- C8 fails on a policy bound to a custom executor: `par.on(E1).on(E0)` with
`E0` of another executor type than `E1`, and `par.on(E1).on(e)` with a thread
executor `e`, are ill-formed, so no result reports the chunk size of the
policy.  Wherever `on` is available it keeps the chunk size: on
`parallel_execution_policy` and `parallel_task_execution_policy` for every
custom executor and every thread executor, on their shims for every executor
of the type the shim is bound to. -/
theorem C8_on_preserves_chunk_size (p : any_policy) (E : executor_ref)
    (e : threads.executor) :
    (any_policy.par_shim ((par.call_chunk_size 5).on_executor ⟨1, 0⟩)).kind =
      PolicyKind.Parallel ∧
    (any_policy.par_shim ((par.call_chunk_size 5).on_executor ⟨1, 0⟩)).on_executor ⟨0, 0⟩ =
      none ∧
    (any_policy.par_shim ((par.call_chunk_size 5).on_executor ⟨1, 0⟩)).on ⟨some 1⟩ = none ∧
    (any_policy.par_task_shim ((par_task.call_chunk_size 5).on_executor ⟨1, 0⟩)).on_executor
      ⟨0, 0⟩ = none ∧
    ((p.on_executor E).map any_policy.get_chunk_size =
      (p.on_executor E).map (fun _ => p.get_chunk_size)) ∧
    ((p.on e).map any_policy.get_chunk_size = (p.on e).map (fun _ => p.get_chunk_size)) ∧
    (∀ q : parallel_execution_policy,
      (q.on_executor E).base.get_chunk_size = q.get_chunk_size ∧
      (q.on e).get_chunk_size = q.get_chunk_size) ∧
    (∀ q : parallel_task_execution_policy,
      (q.on_executor E).base.get_chunk_size = q.get_chunk_size ∧
      (q.on e).get_chunk_size = q.get_chunk_size) ∧
    (∀ q : parallel_execution_policy_shim,
      (q.on_executor E).map (fun r => r.base.get_chunk_size) =
        if E.Executor = q.exec_.Executor then some q.base.get_chunk_size else none) ∧
    (∀ q : parallel_task_execution_policy_shim,
      (q.on_executor E).map (fun r => r.base.get_chunk_size) =
        if E.Executor = q.exec_.Executor then some q.base.get_chunk_size else none) := by
  refine ⟨rfl, by decide, rfl, by decide, ?_, ?_, fun q => ⟨rfl, rfl⟩, fun q => ⟨rfl, rfl⟩,
    ?_, ?_⟩
  · cases p with
    | seq_task_shim q =>
      by_cases hE : E.Executor = q.exec_.Executor <;>
        simp [any_policy.on_executor, sequential_task_execution_policy_shim.on_executor, hE,
          any_policy.get_chunk_size, sequential_task_execution_policy_shim.get_chunk_size]
    | seq_shim q =>
      by_cases hE : E.Executor = q.exec_.Executor <;>
        simp [any_policy.on_executor, sequential_execution_policy_shim.on_executor, hE,
          any_policy.get_chunk_size]
    | par_task_shim q =>
      by_cases hE : E.Executor = q.exec_.Executor
      · simp only [any_policy.on_executor, parallel_task_execution_policy_shim.on_executor,
          if_pos hE, Option.map_some']
        rfl
      · simp [any_policy.on_executor, parallel_task_execution_policy_shim.on_executor, hE]
    | par_shim q =>
      by_cases hE : E.Executor = q.exec_.Executor
      · simp only [any_policy.on_executor, parallel_execution_policy_shim.on_executor,
          if_pos hE, Option.map_some']
        rfl
      · simp [any_policy.on_executor, parallel_execution_policy_shim.on_executor, hE]
    | _ => rfl
  · cases p <;> rfl
  · intro q
    by_cases hE : E.Executor = q.exec_.Executor
    · simp only [parallel_execution_policy_shim.on_executor, if_pos hE, Option.map_some']
      rfl
    · simp [parallel_execution_policy_shim.on_executor, hE]
  · intro q
    by_cases hE : E.Executor = q.exec_.Executor
    · simp only [parallel_task_execution_policy_shim.on_executor, if_pos hE, Option.map_some']
      rfl
    · simp [parallel_task_execution_policy_shim.on_executor, hE]

/-- C9, as stated, fails for a thread executor: `par.on(e)` is available, and
`executor()` of the result is the default executor of
`parallel_execution_policy`, the one `par.executor()` returns; `seq.on(e)`
ignores `e` altogether. -/
theorem C9_on_executor_counterexample :
    ((any_policy.par par).on ⟨some 1⟩).map any_policy.executor =
        some executor_object.parallel_execution_policy_exec ∧
    (any_policy.par par).executor = executor_object.parallel_execution_policy_exec ∧
    (any_policy.seq seq).on ⟨some 1⟩ = some (any_policy.seq seq) ∧
    ((any_policy.seq seq).on ⟨some 1⟩).map any_policy.get_executor ≠
        some ⟨some 1⟩ := by
  decide

/-- C9, amended: for a custom executor `E` accepted by the member template
`on`, `executor()` of `p.on(E)` returns `E`; the member template accepts every
executor on `parallel_execution_policy`, `parallel_task_execution_policy` and
`sequential_task_execution_policy`, and every executor of the type the shim is
bound to on the shims over them.  For a thread executor `e`, given to the
overload `on(threads::executor const&)` of the five non-template classes,
`executor()` of `p.on(e)` is still the default executor of the class;
`get_executor()` of `p.on(e)` returns `e` for `parallel_execution_policy` and
`parallel_task_execution_policy`, while the sequential and vector classes
ignore `e` and return the policy unchanged. -/
theorem C9_on_executor (p : any_policy) (E : executor_ref) (e : threads.executor) :
    ((p.on_executor E).map any_policy.executor =
      (p.on_executor E).map (fun _ => executor_object.ref E)) ∧
    (∀ q : parallel_execution_policy, (q.on_executor E).executor = executor_object.ref E) ∧
    (∀ q : parallel_task_execution_policy,
      (q.on_executor E).executor = executor_object.ref E) ∧
    (∀ q : sequential_task_execution_policy,
      (q.on_executor E).executor = executor_object.ref E) ∧
    (∀ (q : parallel_execution_policy_shim) (object : Nat),
      (q.on_executor ⟨q.exec_.Executor, object⟩).map
          parallel_execution_policy_shim.executor =
        some (executor_object.ref ⟨q.exec_.Executor, object⟩)) ∧
    (∀ (q : parallel_task_execution_policy_shim) (object : Nat),
      (q.on_executor ⟨q.exec_.Executor, object⟩).map
          parallel_task_execution_policy_shim.executor =
        some (executor_object.ref ⟨q.exec_.Executor, object⟩)) ∧
    (∀ (q : sequential_task_execution_policy_shim) (object : Nat),
      (q.on_executor ⟨q.exec_.Executor, object⟩).map
          sequential_task_execution_policy_shim.executor =
        some (executor_object.ref ⟨q.exec_.Executor, object⟩)) ∧
    ((p.on e).map any_policy.executor = (p.on e).map (fun _ => p.executor)) ∧
    ((p.on e).map any_policy.get_executor =
      (match p with
        | any_policy.par _ => some e
        | any_policy.par_task _ => some e
        | any_policy.seq _ => some threads.executor.ctor
        | any_policy.seq_task _ => some threads.executor.ctor
        | any_policy.par_vec _ => some threads.executor.ctor
        | _ => none)) ∧
    (p.on e =
      (match p with
        | any_policy.par q => some (any_policy.par ⟨e, q.chunk_size_⟩)
        | any_policy.par_task q => some (any_policy.par_task ⟨e, q.chunk_size_⟩)
        | any_policy.seq _ => some p
        | any_policy.seq_task _ => some p
        | any_policy.par_vec _ => some p
        | _ => none)) := by
  refine ⟨?_, fun q => rfl, fun q => rfl, fun q => rfl, ?_, ?_, ?_, ?_, ?_, ?_⟩
  · cases p with
    | seq_task_shim q =>
      by_cases hE : E.Executor = q.exec_.Executor
      · simp only [any_policy.on_executor, sequential_task_execution_policy_shim.on_executor,
          if_pos hE, Option.map_some']
        rfl
      · simp [any_policy.on_executor, sequential_task_execution_policy_shim.on_executor, hE]
    | seq_shim q =>
      by_cases hE : E.Executor = q.exec_.Executor
      · simp only [any_policy.on_executor, sequential_execution_policy_shim.on_executor,
          if_pos hE, Option.map_some']
        rfl
      · simp [any_policy.on_executor, sequential_execution_policy_shim.on_executor, hE]
    | par_task_shim q =>
      by_cases hE : E.Executor = q.exec_.Executor
      · simp only [any_policy.on_executor, parallel_task_execution_policy_shim.on_executor,
          if_pos hE, Option.map_some']
        rfl
      · simp [any_policy.on_executor, parallel_task_execution_policy_shim.on_executor, hE]
    | par_shim q =>
      by_cases hE : E.Executor = q.exec_.Executor
      · simp only [any_policy.on_executor, parallel_execution_policy_shim.on_executor,
          if_pos hE, Option.map_some']
        rfl
      · simp [any_policy.on_executor, parallel_execution_policy_shim.on_executor, hE]
    | _ => rfl
  · intro q object
    simp only [parallel_execution_policy_shim.on_executor, if_true, Option.map_some']
    rfl
  · intro q object
    simp only [parallel_task_execution_policy_shim.on_executor, if_true, Option.map_some']
    rfl
  · intro q object
    simp only [sequential_task_execution_policy_shim.on_executor, if_true, Option.map_some']
    rfl
  · cases p <;> rfl
  · cases p <;> rfl
  · cases p <;> rfl

/-! ## The container: type identity -/

/-- C10: for a container built from a policy value `P` of class `K`, `type()`
is the `typeid` of `K`, and `get<K2>()` returns a pointer to the stored policy
when `K2` is `K` and the null pointer for every other policy class `K2`, the
synchronous or asynchronous counterpart of `K` and the shims over `K`
included; it returns a value in every case.  The instances are containers of
`par`, `par_task` and `seq_task`, which the constructor can build. -/
theorem C10_type_and_get (P : any_policy) (K2 : type_info) :
    (execution_policy.ctor P).type = some P.type ∧
    (execution_policy.ctor P).get K2 = some (if K2 = P.type then some P else none) ∧
    ((execution_policy.ctor P).get K2 ≠ some none ↔ K2 = P.type) ∧
    (execution_policy.ctor (any_policy.par par)).get
        type_info.parallel_task_execution_policy = some none ∧
    (execution_policy.ctor (any_policy.par par)).get
        (type_info.parallel_execution_policy_shim 0) = some none ∧
    (execution_policy.ctor (any_policy.par_task par_task)).get
        type_info.parallel_execution_policy = some none ∧
    (execution_policy.ctor (any_policy.seq_task seq_task)).get
        (type_info.sequential_task_execution_policy_shim 1) = some none ∧
    execution_policy.ctor_well_formed (any_policy.par par) = true ∧
    execution_policy.ctor_well_formed (any_policy.par_task par_task) = true ∧
    execution_policy.ctor_well_formed (any_policy.seq_task seq_task) = true := by
  have hget : (execution_policy.ctor P).get K2 =
      some (if K2 = P.type then some P else none) := by
    by_cases hk : K2 = P.type
    · subst hk
      simp [execution_policy.get, execution_policy.ctor,
        detail.execution_policy_shim.type, detail.execution_policy_shim.get]
    · have hk2 : ¬ P.type = K2 := fun h => hk h.symm
      simp [execution_policy.get, execution_policy.ctor,
        detail.execution_policy_shim.type, hk, hk2]
  refine ⟨rfl, hget, ?_, by decide, by decide, by decide, by decide, rfl, rfl, rfl⟩
  rw [hget]
  by_cases hk : K2 = P.type <;> simp [hk]

/-- C11: for every policy value `P` of class `K`, with any chunk size and any
bound executor, the container built from `P` answers `get<K>()` with a pointer
to a stored policy equal to `P`: the same class and kind, the same chunk size,
the same `get_executor()` and the same `executor()`. -/
theorem C11_box_unbox_round_trip (P : any_policy) :
    (execution_policy.ctor P).get P.type = some (some P) ∧
    ((execution_policy.ctor P).get P.type).map (Option.map any_policy.kind) =
        some (some P.kind) ∧
    ((execution_policy.ctor P).get P.type).map (Option.map any_policy.get_chunk_size) =
        some (some P.get_chunk_size) ∧
    ((execution_policy.ctor P).get P.type).map (Option.map any_policy.get_executor) =
        some (some P.get_executor) ∧
    ((execution_policy.ctor P).get P.type).map (Option.map any_policy.executor) =
        some (some P.executor) := by
  have h : (execution_policy.ctor P).get P.type = some (some P) := by
    simp [execution_policy.get, execution_policy.ctor, detail.execution_policy_shim.type,
      detail.execution_policy_shim.get]
  simp [h]

/-! ## The container: forwarding -/

/-- C12: for every policy `P`, applying the tag `task` to the container
holding `P` yields a container whose `type()` is the class of `P(task)` and
whose stored policy is `P(task)`; the member is `const`, and the container it
was called on still answers `get` with `P`. -/
theorem C12_handle_call_task (P : any_policy) :
    (execution_policy.ctor P).call_task task =
        some (execution_policy.ctor (P.call_task task)) ∧
    ((execution_policy.ctor P).call_task task).bind execution_policy.type =
        some (P.call_task task).type ∧
    ((execution_policy.ctor P).call_task task).bind
        (fun h => h.get (P.call_task task).type) = some (some (P.call_task task)) ∧
    (execution_policy.ctor P).get P.type = some (some P) := by
  have h1 : (execution_policy.ctor P).call_task task =
      some (execution_policy.ctor (P.call_task task)) := rfl
  have hget : ∀ Q : any_policy, (execution_policy.ctor Q).get Q.type = some (some Q) := by
    intro Q
    simp [execution_policy.get, execution_policy.ctor, detail.execution_policy_shim.type,
      detail.execution_policy_shim.get]
  refine ⟨h1, ?_, ?_, hget P⟩
  · rw [h1]
    rfl
  · rw [h1]
    exact hget _

/-- C13: for a policy `P` of each of the five non-template classes and every
thread executor `e`, `on(e)` of the container holding `P` is a container
holding `P.on(e)`; its `type()` is that of the container it was called on and
the chunk size of its stored policy is that of `P`.  (For a shim the box has
no overload `on(threads::executor const&)` to forward to.) -/
theorem C13_handle_on (P : any_policy) (e : threads.executor) :
    ((execution_policy.ctor P).on e =
      (match P with
        | any_policy.seq q => some (execution_policy.ctor (any_policy.seq (q.on e)))
        | any_policy.seq_task q =>
            some (execution_policy.ctor (any_policy.seq_task (q.on e)))
        | any_policy.par q => some (execution_policy.ctor (any_policy.par (q.on e)))
        | any_policy.par_task q =>
            some (execution_policy.ctor (any_policy.par_task (q.on e)))
        | any_policy.par_vec q => some (execution_policy.ctor (any_policy.par_vec (q.on e)))
        | _ => none)) ∧
    ((execution_policy.ctor P).on e = (P.on e).map execution_policy.ctor) ∧
    (((execution_policy.ctor P).on e).bind execution_policy.type =
      ((execution_policy.ctor P).on e).bind (fun _ => (execution_policy.ctor P).type)) ∧
    (((execution_policy.ctor P).on e).bind
        (fun h => h.inner_.map (fun box => box.policy_.get_chunk_size)) =
      ((execution_policy.ctor P).on e).map (fun _ => P.get_chunk_size)) := by
  cases P <;> exact ⟨rfl, rfl, rfl, rfl⟩

/-- C14: `launch_policy()` depends on the kind of the stored policy only: the
containers of two policies of the same kind, whatever their chunk sizes and
executors, return the same launch policy. -/
theorem C14_launch_policy_kind_only (p q : any_policy) (h : p.kind = q.kind) :
    (execution_policy.ctor p).launch_policy = (execution_policy.ctor q).launch_policy := by
  have key : ∀ r : any_policy, (execution_policy.ctor r).launch_policy =
      some (if r.kind = PolicyKind.Sequential ∨ r.kind = PolicyKind.SequentialAsync
        then launch.sync else launch.async) := by
    intro r
    cases r <;> rfl
  rw [key p, key q, h]

/-- C14 at `par` and at `par.on(e)(8)`, two Parallel policies differing in
chunk size and in thread executor. -/
theorem C14_launch_policy_kind_only_witness :
    (any_policy.par par).kind =
        (any_policy.par ((par.on ⟨some 1⟩).call_chunk_size 8)).kind ∧
    any_policy.par par ≠ any_policy.par ((par.on ⟨some 1⟩).call_chunk_size 8) ∧
    (execution_policy.ctor (any_policy.par par)).launch_policy =
      (execution_policy.ctor
        (any_policy.par ((par.on ⟨some 1⟩).call_chunk_size 8))).launch_policy :=
  ⟨by decide, by decide,
    C14_launch_policy_kind_only (any_policy.par par)
      (any_policy.par ((par.on ⟨some 1⟩).call_chunk_size 8)) (by decide)⟩

/-! ## Invariants over chains of calls -/

/-- One call keeps a Vectorized policy Vectorized and a policy of another kind
of another kind. -/
theorem any_policy.apply_vectorized (p : any_policy) (op : policy_op) (q : any_policy)
    (h : p.apply op = some q) :
    (q.kind = PolicyKind.Vectorized ↔ p.kind = PolicyKind.Vectorized) := by
  cases p <;> cases op <;>
    simp [any_policy.apply, any_policy.on, any_policy.on_executor,
      any_policy.call_chunk_size, any_policy.call_task_chunk_size,
      sequential_execution_policy.on_executor,
      sequential_execution_policy_shim.on_executor,
      sequential_task_execution_policy_shim.on_executor,
      parallel_execution_policy_shim.on_executor,
      parallel_task_execution_policy_shim.on_executor] at h <;>
    first
      | (subst h
         simp [any_policy.kind, any_policy.type, type_info.kind, any_policy.call_task])
      | (obtain ⟨_, h⟩ := h
         subst h
         simp [any_policy.kind, any_policy.type, type_info.kind])

/-- C15: no chain of calls of `on`, of the call with a chunk size and of the
call with the tag `task` turns a policy that is not Vectorized into a
Vectorized one, or a Vectorized policy into one that is not. -/
theorem C15_vectorized_closed (p : any_policy) (ops : List policy_op) (q : any_policy)
    (h : p.apply_all ops = some q) :
    (q.kind = PolicyKind.Vectorized ↔ p.kind = PolicyKind.Vectorized) := by
  induction ops generalizing p with
  | nil =>
    simp only [any_policy.apply_all, Option.some.injEq] at h
    rw [h]
  | cons op ops ih =>
    simp only [any_policy.apply_all] at h
    cases hstep : p.apply op with
    | none => rw [hstep] at h; cases h
    | some r =>
      rw [hstep] at h
      exact (ih r h).trans (any_policy.apply_vectorized p op r hstep)

/-- C15 at the chain `par(4).on(E)(task)`, which ends in a ParallelAsync
policy, and at the chain `par_vec.on(e)(task)`, which ends in `par_vec`. -/
theorem C15_vectorized_closed_witness :
    (any_policy.par par).apply_all
        [policy_op.call_chunk_size 4, policy_op.on_executor ⟨0, 0⟩, policy_op.call_task task] =
      some (any_policy.par_task_shim
        (((par.call_chunk_size 4).on_executor ⟨0, 0⟩).call_task task)) ∧
    ((any_policy.par_task_shim
        (((par.call_chunk_size 4).on_executor ⟨0, 0⟩).call_task task)).kind =
          PolicyKind.Vectorized ↔ (any_policy.par par).kind = PolicyKind.Vectorized) ∧
    ((any_policy.par_vec par_vec).kind = PolicyKind.Vectorized ↔
      (any_policy.par_vec par_vec).kind = PolicyKind.Vectorized) :=
  ⟨by decide,
    C15_vectorized_closed (any_policy.par par)
      [policy_op.call_chunk_size 4, policy_op.on_executor ⟨0, 0⟩, policy_op.call_task task]
      _ (by decide),
    C15_vectorized_closed (any_policy.par_vec par_vec)
      [policy_op.on ⟨some 2⟩, policy_op.call_task task] (any_policy.par_vec par_vec)
      (by decide)⟩

/-- C16: every Sequential, SequentialAsync or Vectorized policy reached from
any policy, the objects `seq`, `seq_task` and `par_vec` among them, by a chain
of calls reports the chunk size 0. -/
theorem C16_non_chunked_chunk_size (p : any_policy) (ops : List policy_op) (q : any_policy)
    (_h : p.apply_all ops = some q)
    (hk : q.kind = PolicyKind.Sequential ∨ q.kind = PolicyKind.SequentialAsync ∨
      q.kind = PolicyKind.Vectorized) :
    q.get_chunk_size = 0 := by
  cases q <;> first
    | rfl
    | simp [any_policy.kind, any_policy.type, type_info.kind] at hk

/-- C16 at the chain `seq_task.on(E)(task)`. -/
theorem C16_non_chunked_chunk_size_witness :
    (any_policy.seq_task seq_task).apply_all
        [policy_op.on_executor ⟨4, 1⟩, policy_op.call_task task] =
      some (any_policy.seq_task_shim ((seq_task.on_executor ⟨4, 1⟩).call_task task)) ∧
    (any_policy.seq_task_shim ((seq_task.on_executor ⟨4, 1⟩).call_task task)).kind =
      PolicyKind.SequentialAsync ∧
    (any_policy.seq_task_shim
      ((seq_task.on_executor ⟨4, 1⟩).call_task task)).get_chunk_size = 0 :=
  ⟨by decide, by decide,
    C16_non_chunked_chunk_size (any_policy.seq_task seq_task)
      [policy_op.on_executor ⟨4, 1⟩, policy_op.call_task task]
      (any_policy.seq_task_shim ((seq_task.on_executor ⟨4, 1⟩).call_task task))
      (by decide) (Or.inr (Or.inl (by decide)))⟩

/-! ## Serialisation -/

/-- C17: `serialize` of a ParallelAsync policy `p` and of a Parallel policy
`p2` hands the archive the chunk size and nothing else: an output archive
receives exactly the chunk size, whatever the executor of the policy is.
Reading that data into a policy `q` (or `q2`) of the same class gives it the
chunk size of `p` (of `p2`), for every value of the chunk size, and leaves its
thread executor and its `executor()` as they were.  For every archive type the
only member `serialize` touches is `chunk_size_`. -/
theorem C17_serialize_round_trip (p q : parallel_task_execution_policy)
    (p2 q2 : parallel_execution_policy) (data : output_archive) (version : Nat) :
    p.serialize output_archive.amp data version = (data ++ [p.chunk_size_], p) ∧
    q.serialize input_archive.amp (p.serialize output_archive.amp [] version).1 version =
      ([], ⟨q.exec_, p.chunk_size_⟩) ∧
    (q.serialize input_archive.amp (p.serialize output_archive.amp [] version).1
      version).2.get_chunk_size = p.get_chunk_size ∧
    (q.serialize input_archive.amp (p.serialize output_archive.amp [] version).1
      version).2.get_executor = q.get_executor ∧
    (q.serialize input_archive.amp (p.serialize output_archive.amp [] version).1
      version).2.executor = q.executor ∧
    p2.serialize output_archive.amp data version = (data ++ [p2.chunk_size_], p2) ∧
    q2.serialize input_archive.amp (p2.serialize output_archive.amp [] version).1 version =
      ([], ⟨q2.exec_, p2.chunk_size_⟩) ∧
    (q2.serialize input_archive.amp (p2.serialize output_archive.amp [] version).1
      version).2.get_chunk_size = p2.get_chunk_size ∧
    (q2.serialize input_archive.amp (p2.serialize output_archive.amp [] version).1
      version).2.get_executor = q2.get_executor ∧
    (q2.serialize input_archive.amp (p2.serialize output_archive.amp [] version).1
      version).2.executor = q2.executor ∧
    (∀ (Archive : Type) (amp : Archive → Nat → Archive × Nat) (ar : Archive),
      (p.serialize amp ar version).1 = (amp ar p.chunk_size_).1 ∧
      (p.serialize amp ar version).2.chunk_size_ = (amp ar p.chunk_size_).2 ∧
      (p.serialize amp ar version).2.exec_ = p.exec_ ∧
      (p2.serialize amp ar version).1 = (amp ar p2.chunk_size_).1 ∧
      (p2.serialize amp ar version).2.chunk_size_ = (amp ar p2.chunk_size_).2 ∧
      (p2.serialize amp ar version).2.exec_ = p2.exec_) := by
  refine ⟨rfl, rfl, rfl, rfl, rfl, rfl, rfl, rfl, rfl, rfl, ?_⟩
  intro Archive amp ar
  exact ⟨rfl, rfl, rfl, rfl, rfl, rfl⟩

/-! ## The traits -/

/-- C18: `is_execution_policy<T>` is true exactly when the decayed `T` is one
of the five policy classes, one of the four shims over them, or the container
`execution_policy`, and false for every other type; the converting
constructor of the container is enabled for exactly those types. -/
theorem C18_is_execution_policy (decay : cpp_type → cpp_type) (T : cpp_type) :
    (is_execution_policy decay T = true ↔
      (decay T = cpp_type.policy type_info.sequential_execution_policy ∨
       decay T = cpp_type.policy type_info.sequential_task_execution_policy ∨
       decay T = cpp_type.policy type_info.parallel_execution_policy ∨
       decay T = cpp_type.policy type_info.parallel_task_execution_policy ∨
       decay T = cpp_type.policy type_info.parallel_vector_execution_policy ∨
       (∃ E, decay T = cpp_type.policy (type_info.sequential_execution_policy_shim E)) ∨
       (∃ E, decay T =
          cpp_type.policy (type_info.sequential_task_execution_policy_shim E)) ∨
       (∃ E, decay T = cpp_type.policy (type_info.parallel_execution_policy_shim E)) ∨
       (∃ E, decay T = cpp_type.policy (type_info.parallel_task_execution_policy_shim E)) ∨
       decay T = cpp_type.execution_policy)) ∧
    (is_execution_policy decay T =
      (match decay T with
        | cpp_type.other _ => false
        | _ => true)) ∧
    (execution_policy.ctor_enabled decay T = is_execution_policy decay T) := by
  refine ⟨?_, ?_, rfl⟩
  · unfold is_execution_policy
    generalize decay T = D
    cases D with
    | policy t => cases t <;> simp [detail.is_execution_policy]
    | execution_policy => simp [detail.is_execution_policy]
    | other n => simp [detail.is_execution_policy]
  · unfold is_execution_policy
    generalize decay T = D
    cases D with
    | policy t => cases t <;> rfl
    | execution_policy => rfl
    | other n => rfl

/-- C19 fails on the shims: `is_parallel_execution_policy` is specialised for
`parallel_execution_policy`, `parallel_vector_execution_policy` and
`parallel_task_execution_policy` only, so it is false for the class of
`par.on(E)` and of `par_task.on(E)`, policies of kind Parallel and
ParallelAsync; `is_sequential_execution_policy` has the specialisations for
its shims.  On the five non-template classes the trait is as the claim says. -/
theorem C19_is_parallel_execution_policy (E : executor_ref) :
    (any_policy.par_shim (par.on_executor E)).kind = PolicyKind.Parallel ∧
    is_parallel_execution_policy (any_policy.par_shim (par.on_executor E)).type = false ∧
    (any_policy.par_task_shim (par_task.on_executor E)).kind = PolicyKind.ParallelAsync ∧
    is_parallel_execution_policy
      (any_policy.par_task_shim (par_task.on_executor E)).type = false ∧
    is_sequential_execution_policy
      (any_policy.seq_shim (sequential_execution_policy_shim.ctor E)).type = true ∧
    is_sequential_execution_policy
      (any_policy.seq_task_shim (seq_task.on_executor E)).type = true ∧
    is_parallel_execution_policy type_info.parallel_execution_policy = true ∧
    is_parallel_execution_policy type_info.parallel_task_execution_policy = true ∧
    is_parallel_execution_policy type_info.parallel_vector_execution_policy = true ∧
    is_parallel_execution_policy type_info.sequential_execution_policy = false ∧
    is_parallel_execution_policy type_info.sequential_task_execution_policy = false ∧
    is_parallel_execution_policy (type_info.sequential_execution_policy_shim E.Executor) =
      false ∧
    is_parallel_execution_policy
      (type_info.sequential_task_execution_policy_shim E.Executor) = false :=
  ⟨rfl, rfl, rfl, rfl, rfl, rfl, rfl, rfl, rfl, rfl, rfl, rfl, rfl⟩

/-- C20 fails on the shims: `is_async_execution_policy` is specialised for
`sequential_task_execution_policy` and `parallel_task_execution_policy` only,
so it is false for the class of `seq_task.on(E)` and of `par_task.on(E)`,
policies of kind SequentialAsync and ParallelAsync.  On the five non-template
classes, and on the shims of the synchronous classes, the trait is as the
claim says. -/
theorem C20_is_async_execution_policy (E : executor_ref) :
    (any_policy.seq_task_shim (seq_task.on_executor E)).kind =
      PolicyKind.SequentialAsync ∧
    is_async_execution_policy
      (any_policy.seq_task_shim (seq_task.on_executor E)).type = false ∧
    (any_policy.par_task_shim (par_task.on_executor E)).kind = PolicyKind.ParallelAsync ∧
    is_async_execution_policy
      (any_policy.par_task_shim (par_task.on_executor E)).type = false ∧
    is_async_execution_policy type_info.sequential_task_execution_policy = true ∧
    is_async_execution_policy type_info.parallel_task_execution_policy = true ∧
    is_async_execution_policy type_info.sequential_execution_policy = false ∧
    is_async_execution_policy type_info.parallel_execution_policy = false ∧
    is_async_execution_policy type_info.parallel_vector_execution_policy = false ∧
    is_async_execution_policy (type_info.sequential_execution_policy_shim E.Executor) =
      false ∧
    is_async_execution_policy (type_info.parallel_execution_policy_shim E.Executor) =
      false :=
  ⟨rfl, rfl, rfl, rfl, rfl, rfl, rfl, rfl, rfl, rfl, rfl⟩

/-! ## Thread executors on the sequential and vector classes -/

/-- C21: on `sequential_execution_policy`, `sequential_task_execution_policy`
and `parallel_vector_execution_policy` the overload
`on(threads::executor const&)` ignores its argument: for every such policy and
every thread executor `e`, `p.on(e)` is `p`, and `get_executor()` of the
result is the default-constructed thread executor whatever `e` is. -/
theorem C21_on_thread_executor_ignored (e : threads.executor)
    (s : sequential_execution_policy) (t : sequential_task_execution_policy)
    (v : parallel_vector_execution_policy) :
    s.on e = s ∧ t.on e = t ∧ v.on e = v ∧
    (any_policy.seq s).on e = some (any_policy.seq s) ∧
    (any_policy.seq_task t).on e = some (any_policy.seq_task t) ∧
    (any_policy.par_vec v).on e = some (any_policy.par_vec v) ∧
    ((any_policy.seq s).on e).map any_policy.get_executor = some threads.executor.ctor ∧
    ((any_policy.seq_task t).on e).map any_policy.get_executor =
      some threads.executor.ctor ∧
    ((any_policy.par_vec v).on e).map any_policy.get_executor =
      some threads.executor.ctor ∧
    ((any_policy.seq seq).on ⟨some 5⟩).map any_policy.get_executor ≠ some ⟨some 5⟩ :=
  ⟨rfl, rfl, rfl, rfl, rfl, rfl, rfl, rfl, rfl, by decide⟩

/-! ## The container: moving -/

/-- C22: move construction, and move assignment from a different object, hand
the box over: the destination afterwards has the `inner_` the source had, so
its `type()` and its stored policy are those of the source before, the box is
the one the source held, and the source is left with a null `inner_`. -/
theorem C22_move (source destination : execution_policy) (K : type_info) :
    (execution_policy.ctor_move source).1.inner_ = source.inner_ ∧
    (execution_policy.ctor_move source).1.type = source.type ∧
    (execution_policy.ctor_move source).1.get K = source.get K ∧
    (execution_policy.ctor_move source).2.inner_ = none ∧
    (execution_policy.assign_move destination source false).1.inner_ = source.inner_ ∧
    (execution_policy.assign_move destination source false).1.type = source.type ∧
    (execution_policy.assign_move destination source false).1.get K = source.get K ∧
    (execution_policy.assign_move destination source false).2.inner_ = none ∧
    (∀ P : any_policy,
      (execution_policy.ctor_move (execution_policy.ctor P)).1.get P.type =
        some (some P) ∧
      (execution_policy.assign_move destination (execution_policy.ctor P) false).1.get
        P.type = some (some P)) := by
  refine ⟨rfl, rfl, rfl, rfl, rfl, rfl, rfl, rfl, ?_⟩
  intro P
  have h : (execution_policy.ctor P).get P.type = some (some P) := by
    simp [execution_policy.get, execution_policy.ctor, detail.execution_policy_shim.type,
      detail.execution_policy_shim.get]
  exact ⟨h, h⟩

/-! ## The call with the tag and a chunk size -/

/-- C30, as stated, fails for a Parallel policy bound to a custom executor:
`par.on(E)(task)` is of class `parallel_task_execution_policy_shim`, which has
no `operator()(std::size_t)`, so `par.on(E)(task)(6)` does not exist, while
`par.on(E)(task, 6)` does. -/
theorem C30_call_task_chunk_size_counterexample :
    (any_policy.par_shim (par.on_executor ⟨2, 3⟩)).kind = PolicyKind.Parallel ∧
    ((any_policy.par_shim (par.on_executor ⟨2, 3⟩)).call_task task).call_chunk_size 6 =
      none ∧
    (any_policy.par_shim (par.on_executor ⟨2, 3⟩)).call_task_chunk_size task 6 ≠ none := by
  decide

/-- C30, amended: for every Parallel policy `p`, default, bound to a thread
executor or bound to a custom executor, and every `N`, `p(task, N)` is a
ParallelAsync policy with chunk size `N` and the executors of `p`, and equals
`p(N)(task)`; for `p` of class `parallel_execution_policy` it also equals
`p(task)(N)`, which a policy bound to a custom executor does not offer. -/
theorem C30_call_task_chunk_size (p : any_policy) (N : Nat) :
    ((p.call_task_chunk_size task N).map any_policy.kind =
      (match p.kind with
        | PolicyKind.Parallel => some PolicyKind.ParallelAsync
        | _ => none)) ∧
    ((p.call_task_chunk_size task N).map any_policy.get_chunk_size =
      (match p.kind with
        | PolicyKind.Parallel => some N
        | _ => none)) ∧
    ((p.call_task_chunk_size task N).map any_policy.get_executor =
      (match p.kind with
        | PolicyKind.Parallel => some (p.call_task task).get_executor
        | _ => none)) ∧
    ((p.call_task_chunk_size task N).map any_policy.executor =
      (match p.kind with
        | PolicyKind.Parallel => some (p.call_task task).executor
        | _ => none)) ∧
    ((p.call_task_chunk_size task N) =
      (match p.kind with
        | PolicyKind.Parallel => (p.call_chunk_size N).map (fun q => q.call_task task)
        | _ => none)) ∧
    ((p.call_task task).call_chunk_size N =
      (match p with
        | any_policy.par _ => p.call_task_chunk_size task N
        | any_policy.par_task q => some (any_policy.par_task (q.call_chunk_size N))
        | _ => none)) ∧
    (∀ q : parallel_execution_policy,
      (q.call_task_chunk_size task N).get_executor = q.get_executor ∧
      q.call_task_chunk_size task N = (q.call_chunk_size N).call_task task ∧
      q.call_task_chunk_size task N = (q.call_task task).call_chunk_size N) ∧
    (∀ q : parallel_execution_policy_shim,
      (q.call_task_chunk_size task N).executor = q.executor ∧
      q.call_task_chunk_size task N = (q.call_chunk_size N).call_task task) := by
  refine ⟨?_, ?_, ?_, ?_, ?_, ?_, fun q => ⟨rfl, rfl, rfl⟩, fun q => ⟨rfl, rfl⟩⟩ <;>
    cases p <;> rfl

/-! ## Failures inside an algorithm -/

/-- The work of `for_each_n` over the test vector fails with `bad_alloc` when
the function object always throws it. -/
theorem for_each_n.work_test_vector (proj : Nat → Nat) (rand : Nat) :
    for_each_n.work (test_vector rand) (test_vector rand).length
      (fun _ => Except.error std.exception.bad_alloc) proj =
      Except.error std.exception.bad_alloc := by
  have h : test_vector rand = rand :: List.range' (rand + 1) 10006 := by
    unfold test_vector
    rw [show (10007 : Nat) = 10006 + 1 from rfl, List.range'_succ]
  rw [h]
  simp [for_each_n.work, for_each_n.loop]

/-- C23: under a Sequential or Parallel policy, `seq` and `par` among them, a
failure `e` raised inside the work of `for_each_n` leaves the call as the
exception `e`, and the call does not return; the test
`test_for_each_n_bad_alloc`, whose function object throws `bad_alloc`, then
passes its one check for every iterator category and projection. -/
theorem C23_sync_failure_propagates (policy : any_policy) (tag : iterator_tag)
    (c : List Nat) (count : Nat) (f : Nat → Except std.exception Unit) (proj : Nat → Nat)
    (e : std.exception) (rand : Nat)
    (hk : policy.kind = PolicyKind.Sequential ∨ policy.kind = PolicyKind.Parallel)
    (hw : for_each_n.work c count f proj = Except.error e) :
    for_each_n policy tag c count f proj = call_result.raised e ∧
    (∀ v, for_each_n policy tag c count f proj ≠ call_result.returned v) ∧
    test_for_each_n_bad_alloc policy tag proj rand = call_result.returned [true] := by
  have h1 : for_each_n policy tag c count f proj = call_result.raised e := by
    unfold for_each_n
    rcases hk with hk | hk <;> rw [hk] <;> simp only [hw]
  have h2 : for_each_n policy tag (test_vector rand) (test_vector rand).length
      (fun _ => Except.error std.exception.bad_alloc) proj =
      call_result.raised std.exception.bad_alloc := by
    unfold for_each_n
    rcases hk with hk | hk <;> rw [hk] <;> simp only [for_each_n.work_test_vector]
  refine ⟨h1, ?_, ?_⟩
  · intro v hv
    rw [h1] at hv
    cases hv
  · unfold test_for_each_n_bad_alloc
    rw [h2]

/-- C23 at `par` with a three-element sequence whose function object throws
`bad_alloc`, the projection squaring its argument. -/
theorem C23_sync_failure_propagates_witness :
    for_each_n (any_policy.par par) iterator_tag.forward_iterator_tag [1, 2, 3] 3
      (fun _ => Except.error std.exception.bad_alloc) (fun x => x * x) =
      call_result.raised std.exception.bad_alloc :=
  (C23_sync_failure_propagates (any_policy.par par) iterator_tag.forward_iterator_tag
    [1, 2, 3] 3 (fun _ => Except.error std.exception.bad_alloc) (fun x => x * x)
    std.exception.bad_alloc 0 (Or.inr rfl) rfl).1

/-- C24: under a SequentialAsync or ParallelAsync policy, `seq(task)` and
`par(task)` among them, the call of `for_each_n` returns a future and raises
nothing even when the work fails with `e`; `get()` on that future raises `e`.
The test `test_for_each_n_bad_alloc_async` then passes its two checks for
every iterator category and projection. -/
theorem C24_async_failure_deferred (policy : any_policy) (tag : iterator_tag)
    (c : List Nat) (count : Nat) (f : Nat → Except std.exception Unit) (proj : Nat → Nat)
    (e : std.exception) (rand : Nat)
    (hk : policy.kind = PolicyKind.SequentialAsync ∨ policy.kind = PolicyKind.ParallelAsync)
    (hw : for_each_n.work c count f proj = Except.error e) :
    for_each_n policy tag c count f proj =
      call_result.returned (for_each_n.result.future ⟨for_each_n.work c count f proj⟩) ∧
    for_each_n policy tag c count f proj ≠ call_result.raised e ∧
    (future.mk (for_each_n.work c count f proj)).get = call_result.raised e ∧
    test_for_each_n_bad_alloc_async policy tag proj rand =
      call_result.returned [true, true] := by
  have h1 : ∀ (c : List Nat) (count : Nat) (f : Nat → Except std.exception Unit),
      for_each_n policy tag c count f proj =
        call_result.returned (for_each_n.result.future ⟨for_each_n.work c count f proj⟩) := by
    intro c count f
    unfold for_each_n
    rcases hk with hk | hk <;> rw [hk]
  refine ⟨h1 c count f, ?_, ?_, ?_⟩
  · rw [h1 c count f]
    intro hv
    cases hv
  · simp only [future.get, hw]
  · unfold test_for_each_n_bad_alloc_async
    rw [h1]
    simp only [future.get, for_each_n.work_test_vector]

/-- C24 at `seq(task)` with a three-element sequence whose function object
throws `bad_alloc`. -/
theorem C24_async_failure_deferred_witness :
    (for_each_n (any_policy.seq_task (seq.call_task task))
      iterator_tag.input_iterator_tag [4, 5, 6] 3
      (fun _ => Except.error std.exception.bad_alloc) (fun x => x) ≠
      call_result.raised std.exception.bad_alloc) ∧
    (future.mk (for_each_n.work [4, 5, 6] 3
      (fun _ => Except.error std.exception.bad_alloc) (fun x => x))).get =
      call_result.raised std.exception.bad_alloc :=
  ⟨(C24_async_failure_deferred (any_policy.seq_task (seq.call_task task))
      iterator_tag.input_iterator_tag [4, 5, 6] 3
      (fun _ => Except.error std.exception.bad_alloc) (fun x => x)
      std.exception.bad_alloc 0 (Or.inl rfl) rfl).2.1,
   (C24_async_failure_deferred (any_policy.seq_task (seq.call_task task))
      iterator_tag.input_iterator_tag [4, 5, 6] 3
      (fun _ => Except.error std.exception.bad_alloc) (fun x => x)
      std.exception.bad_alloc 0 (Or.inl rfl) rfl).2.2.1⟩

/-! ## What the tag `task` leaves as it is -/

/-- C31: the call with the tag `task` changes nothing but the class: for every
policy `p` the chunk size and the thread executor of `p(task)` are those of
`p`; for a Parallel policy bound to a thread executor or to a custom executor
and for a Sequential policy bound to a custom executor, `p(task)` is bound to
the same executor. -/
theorem C31_call_task_frame (p : any_policy) (h : p.invariant = true) :
    (p.call_task task).get_chunk_size = p.get_chunk_size ∧
    (p.call_task task).get_executor = p.get_executor ∧
    (∀ q : parallel_execution_policy,
      (q.call_task task).get_chunk_size = q.get_chunk_size ∧
      (q.call_task task).get_executor = q.get_executor) ∧
    (∀ q : parallel_execution_policy_shim,
      (q.call_task task).base.get_chunk_size = q.base.get_chunk_size ∧
      (q.call_task task).executor = q.executor ∧
      (q.call_task task).executor = executor_object.ref q.exec_) ∧
    (∀ q : sequential_execution_policy_shim,
      (q.call_task task).executor = q.executor ∧
      (q.call_task task).executor = executor_object.ref q.exec_) := by
  refine ⟨?_, ?_, fun q => ⟨rfl, rfl⟩, fun q => ⟨rfl, rfl, rfl⟩, fun q => ⟨rfl, rfl⟩⟩
  · cases p <;> rfl
  · cases p with
    | par_shim q =>
      have hq : q.base.exec_ = threads.executor.ctor := by
        simpa [any_policy.invariant] using h
      show threads.executor.ctor = q.base.exec_
      rw [hq]
    | _ => rfl

/-- C31 at the policy `par.on(E)(4)`, a Parallel policy bound to a custom
executor. -/
theorem C31_call_task_frame_witness :
    ((any_policy.par_shim ((par.on_executor ⟨7, 9⟩).call_chunk_size 4)).call_task
      task).get_chunk_size = 4 ∧
    ((any_policy.par_shim ((par.on_executor ⟨7, 9⟩).call_chunk_size 4)).call_task
      task).get_executor = threads.executor.ctor :=
  ⟨(C31_call_task_frame (any_policy.par_shim ((par.on_executor ⟨7, 9⟩).call_chunk_size 4))
      (by decide)).1,
   (C31_call_task_frame (any_policy.par_shim ((par.on_executor ⟨7, 9⟩).call_chunk_size 4))
      (by decide)).2.1⟩

/-- C32: `launch_policy()` of a container is `launch::sync` exactly when
`is_sequential_execution_policy` holds for the class of the stored policy,
which it does for `sequential_execution_policy`,
`sequential_task_execution_policy` and the shims over them, and
`launch::async` for every other class. -/
theorem C32_launch_policy_is_sequential (p : any_policy) :
    ((execution_policy.ctor p).launch_policy =
      some (if is_sequential_execution_policy p.type = true then launch.sync
        else launch.async)) ∧
    ((execution_policy.ctor p).launch_policy = some launch.sync ↔
      is_sequential_execution_policy p.type = true) ∧
    ((execution_policy.ctor p).launch_policy = some launch.async ↔
      is_sequential_execution_policy p.type = false) ∧
    (is_sequential_execution_policy p.type =
      (match p with
        | any_policy.seq _ => true
        | any_policy.seq_shim _ => true
        | any_policy.seq_task _ => true
        | any_policy.seq_task_shim _ => true
        | _ => false)) := by
  cases p <;> refine ⟨rfl, ?_, ?_, rfl⟩ <;>
    simp [execution_policy.launch_policy, execution_policy.ctor,
      detail.execution_policy_shim.launch_policy, detail.extract_launch_policy.call,
      is_sequential_execution_policy, detail.is_sequential_execution_policy, any_policy.type]

end hpx.parallel

/-! ## The sed expression parser -/

namespace hpx.util

theorem string_at_append (pre : List Char) (a : Char) (tl : List Char) :
    string_at (pre ++ a :: tl) pre.length = Except.ok a := by
  have h : (pre ++ a :: tl)[pre.length]? = some a := by
    rw [List.getElem?_append_right (le_refl _)]
    simp
  simp [string_at, h]

theorem string_at_append_succ (pre : List Char) (a b : Char) (tl : List Char) :
    string_at (pre ++ a :: b :: tl) (pre.length + 1) = Except.ok b := by
  have h := string_at_append (pre ++ [a]) b tl
  simpa using h

theorem string_at_append_succ_succ (pre : List Char) (a b c : Char) (tl : List Char) :
    string_at (pre ++ a :: b :: c :: tl) (pre.length + 2) = Except.ok c := by
  have h := string_at_append (pre ++ [a, b]) c tl
  simpa using h

theorem string_at_length (input : List Char) (pos : Nat) (h : input.length ≤ pos) :
    string_at input pos = Except.error std.exception.out_of_range := by
  simp [string_at, List.getElem?_eq_none h]

theorem scan_step_plain (pre : List Char) (a b : Char) (tl : List Char)
    (ha : a ≠ '\\') (hb : b ≠ '/') :
    parse_sed_expression.scan (pre ++ a :: b :: tl) pre.length =
      parse_sed_expression.scan (pre ++ a :: b :: tl) (pre.length + 1) := by
  rw [parse_sed_expression.scan]
  have h1 : ¬ ((pre ++ a :: b :: tl).length - 1 < pre.length) := by
    simp only [List.length_append, List.length_cons]; omega
  rw [if_neg h1, string_at_append]
  simp only [if_neg (fun h : '\\' = a => ha h.symm)]
  split
  · rename_i e h
    rw [string_at_append_succ] at h
    cases h
  · rename_i d h
    rw [string_at_append_succ] at h
    injection h with h
    subst h
    rw [if_neg (fun h : '/' = b => hb h.symm)]

theorem scan_stop_plain (pre : List Char) (a : Char) (tl : List Char) (ha : a ≠ '\\') :
    parse_sed_expression.scan (pre ++ a :: '/' :: tl) pre.length =
      Except.ok (some pre.length) := by
  rw [parse_sed_expression.scan]
  have h1 : ¬ ((pre ++ a :: '/' :: tl).length - 1 < pre.length) := by
    simp only [List.length_append, List.length_cons]; omega
  rw [if_neg h1, string_at_append]
  simp only [if_neg (fun h : '\\' = a => ha h.symm)]
  split
  · rename_i e h
    rw [string_at_append_succ] at h
    cases h
  · rename_i d h
    rw [string_at_append_succ] at h
    injection h with h
    subst h
    simp

theorem scan_end_plain (pre : List Char) (a : Char) (ha : a ≠ '\\') :
    parse_sed_expression.scan (pre ++ [a]) pre.length =
      Except.error std.exception.out_of_range := by
  rw [parse_sed_expression.scan]
  have h1 : ¬ ((pre ++ [a]).length - 1 < pre.length) := by
    (simp only [List.length_append, List.length_cons, List.length_nil]; omega)
  rw [if_neg h1, string_at_append]
  simp only [if_neg (fun h : '\\' = a => ha h.symm)]
  have h2 : string_at (pre ++ [a]) (pre.length + 1) =
      Except.error std.exception.out_of_range :=
    string_at_length _ _ (by simp)
  split
  · rename_i e h
    rw [h2] at h
    injection h with h
    rw [h]
  · rename_i d h
    rw [h2] at h
    cases h

theorem scan_step_escape (pre : List Char) (x b : Char) (tl : List Char) (hb : b ≠ '/') :
    parse_sed_expression.scan (pre ++ '\\' :: x :: b :: tl) pre.length =
      parse_sed_expression.scan (pre ++ '\\' :: x :: b :: tl) (pre.length + 2) := by
  rw [parse_sed_expression.scan]
  have h1 : ¬ ((pre ++ '\\' :: x :: b :: tl).length - 1 < pre.length) := by
    simp only [List.length_append, List.length_cons]; omega
  have h2 : ¬ ((pre ++ '\\' :: x :: b :: tl).length - 1 < pre.length + 2) := by
    simp only [List.length_append, List.length_cons]; omega
  rw [if_neg h1, string_at_append]
  simp only [if_true, if_neg h2]
  split
  · rename_i e h
    rw [string_at_append_succ_succ] at h
    cases h
  · rename_i d h
    rw [string_at_append_succ_succ] at h
    injection h with h
    subst h
    rw [if_neg (fun h : '/' = b => hb h.symm)]

theorem scan_stop_escape (pre : List Char) (x : Char) (tl : List Char) :
    parse_sed_expression.scan (pre ++ '\\' :: x :: '/' :: tl) pre.length =
      Except.ok (some (pre.length + 1)) := by
  rw [parse_sed_expression.scan]
  have h1 : ¬ ((pre ++ '\\' :: x :: '/' :: tl).length - 1 < pre.length) := by
    simp only [List.length_append, List.length_cons]; omega
  have h2 : ¬ ((pre ++ '\\' :: x :: '/' :: tl).length - 1 < pre.length + 2) := by
    simp only [List.length_append, List.length_cons]; omega
  rw [if_neg h1, string_at_append]
  simp only [if_true, if_neg h2]
  split
  · rename_i e h
    rw [string_at_append_succ_succ] at h
    cases h
  · rename_i d h
    rw [string_at_append_succ_succ] at h
    injection h with h
    subst h
    simp

/-- A run of characters that are neither a slash nor a backslash, followed by
a character that is not a slash, is stepped over one character at a time. -/
theorem scan_run_plain (S : List Char) (hS : ∀ c ∈ S, c ≠ '/' ∧ c ≠ '\\') :
    ∀ (pre : List Char) (b : Char) (tl : List Char), b ≠ '/' →
      parse_sed_expression.scan (pre ++ S ++ b :: tl) pre.length =
        parse_sed_expression.scan (pre ++ S ++ b :: tl) (pre.length + S.length) := by
  induction S with
  | nil => intro pre b tl _; simp
  | cons a S ih =>
    intro pre b tl hb
    have ha := hS a (List.mem_cons_self a S)
    have hS2 : ∀ c ∈ S, c ≠ '/' ∧ c ≠ '\\' := fun c hc => hS c (List.mem_cons_of_mem a hc)
    have ih2 := ih hS2 (pre ++ [a]) b tl hb
    have e1 : pre ++ [a] ++ S ++ b :: tl = pre ++ a :: S ++ b :: tl := by simp
    rw [e1] at ih2
    have e2 : (pre ++ [a]).length + S.length = pre.length + (a :: S).length := by
      (simp only [List.length_append, List.length_cons, List.length_nil]; omega)
    have e3 : (pre ++ [a]).length = pre.length + 1 := by simp
    rw [e2, e3] at ih2
    rw [← ih2]
    cases S with
    | nil =>
      have := scan_step_plain pre a b tl ha.2 hb
      simpa using this
    | cons c S2 =>
      have hc := hS2 c (List.mem_cons_self c S2)
      have := scan_step_plain pre a c (S2 ++ b :: tl) ha.2 hc.1
      simpa using this

theorem string_substr_append (pre mid tl : List Char) (count : Nat)
    (hc : count = mid.length) :
    string_substr (pre ++ mid ++ tl) pre.length count = Except.ok mid := by
  subst hc
  have h : ¬ (pre.length > (pre ++ mid ++ tl).length) := by
    simp only [List.length_append]; omega
  simp [string_substr, h, List.append_assoc]

theorem string_substr_end (input : List Char) (count : Nat) :
    string_substr input input.length count = Except.ok [] := by
  simp [string_substr]

/-- The function after its loop: when the loop leaves `search_end` at the last
character of `Sr`, the search part is `Sr` and the replace part is what
follows the closing slash, less one trailing slash. -/
theorem parse_sed_expression_of_scan (Sr T search replace : List Char) (hSr : Sr ≠ [])
    (hlen : ('s' :: '/' :: (Sr ++ '/' :: T)).length < size_type_modulus)
    (hscan : parse_sed_expression.scan ('s' :: '/' :: (Sr ++ '/' :: T)) 2 =
      Except.ok (some (Sr.length + 1))) :
    parse_sed_expression ('s' :: '/' :: (Sr ++ '/' :: T)) search replace =
      Except.ok (true, Sr, if T.getLast? = some '/' then T.dropLast else T) := by
  have hSrlen : 1 ≤ Sr.length := by
    cases Sr with
    | nil => exact absurd rfl hSr
    | cons a l => simp
  have hL : ('s' :: '/' :: (Sr ++ '/' :: T)).length = Sr.length + T.length + 3 := by
    simp only [List.length_cons, List.length_append]; omega
  have h0 : string_at ('s' :: '/' :: (Sr ++ '/' :: T)) 0 = Except.ok 's' := rfl
  have h1 : string_at ('s' :: '/' :: (Sr ++ '/' :: T)) 1 = Except.ok '/' := by
    simp [string_at]
  have h2 : string_at ('s' :: '/' :: (Sr ++ '/' :: T)) (Sr.length + 1 + 1) =
      Except.ok '/' := by
    have := string_at_append ('s' :: '/' :: Sr) '/' T
    simpa using this
  have hsearch : string_substr ('s' :: '/' :: (Sr ++ '/' :: T)) 2
      (size_type_add (size_type_sub (Sr.length + 1) 2) 1) = Except.ok Sr := by
    have := string_substr_append ['s', '/'] Sr ('/' :: T)
      (size_type_add (size_type_sub (Sr.length + 1) 2) 1)
      (by rw [hL] at hlen
          unfold size_type_add size_type_sub
          unfold size_type_modulus at *
          omega)
    simpa using this
  have hnle : ¬ (('s' :: '/' :: (Sr ++ '/' :: T)).length ≤ 2) := by rw [hL]; omega
  unfold parse_sed_expression
  rw [if_neg hnle]
  simp only [bind, Except.bind, pure, Except.pure, h0, h1, hscan, h2, ne_eq,
    not_true_eq_false, if_false, hsearch]
  rcases List.eq_nil_or_concat T with hT | ⟨T2, z, hT⟩
  · subst hT
    have h3 : string_at ('s' :: '/' :: (Sr ++ ['/']))
        (('s' :: '/' :: (Sr ++ ['/'])).length - 1) = Except.ok '/' := by
      have := string_at_append ('s' :: '/' :: Sr) '/' []
      simpa using this
    have h4 : ∀ count, string_substr ('s' :: '/' :: (Sr ++ ['/'])) (Sr.length + 1 + 2) count =
        Except.ok [] := by
      intro count
      have := string_substr_end ('s' :: '/' :: (Sr ++ ['/'])) count
      simpa using this
    simp only [h3, h4, if_true]
    simp
  · rw [List.concat_eq_append] at hT
    subst hT
    have h3 : string_at ('s' :: '/' :: (Sr ++ '/' :: (T2 ++ [z])))
        (('s' :: '/' :: (Sr ++ '/' :: (T2 ++ [z]))).length - 1) = Except.ok z := by
      have := string_at_append ('s' :: '/' :: (Sr ++ '/' :: T2)) z []
      simpa using this
    have hL2 : ('s' :: '/' :: (Sr ++ '/' :: (T2 ++ [z]))).length =
        Sr.length + T2.length + 4 := by
      simp only [List.length_cons, List.length_append, List.length_nil]; omega
    rw [hL2] at hlen
    simp only [h3]
    by_cases hz : '/' = z
    · subst hz
      have h4 : string_substr ('s' :: '/' :: (Sr ++ '/' :: (T2 ++ ['/']))) (Sr.length + 1 + 2)
          (size_type_add (size_type_sub
            (('s' :: '/' :: (Sr ++ '/' :: (T2 ++ ['/']))).length - 1 - 1)
            (Sr.length + 1 + 2)) 1) = Except.ok T2 := by
        have := string_substr_append ('s' :: '/' :: (Sr ++ ['/'])) T2 ['/']
          (size_type_add (size_type_sub
            (('s' :: '/' :: (Sr ++ '/' :: (T2 ++ ['/']))).length - 1 - 1)
            (Sr.length + 1 + 2)) 1)
          (by rw [hL2]
              unfold size_type_add size_type_sub
              unfold size_type_modulus at *
              omega)
        simpa using this
      simp only [if_true, h4]
      simp
    · have h4 : string_substr ('s' :: '/' :: (Sr ++ '/' :: (T2 ++ [z]))) (Sr.length + 1 + 2)
          (size_type_add (size_type_sub
            (('s' :: '/' :: (Sr ++ '/' :: (T2 ++ [z]))).length - 1)
            (Sr.length + 1 + 2)) 1) = Except.ok (T2 ++ [z]) := by
        have := string_substr_append ('s' :: '/' :: (Sr ++ ['/'])) (T2 ++ [z]) []
          (size_type_add (size_type_sub
            (('s' :: '/' :: (Sr ++ '/' :: (T2 ++ [z]))).length - 1)
            (Sr.length + 1 + 2)) 1)
          (by rw [hL2]
              simp only [List.length_append, List.length_cons, List.length_nil]
              unfold size_type_add size_type_sub
              unfold size_type_modulus at *
              omega)
        simpa using this
      simp only [if_neg hz, h4]
      have hz2 : ¬ (z = '/') := fun h => hz h.symm
      simp [hz2]

/-- The loop over a search part without slash or backslash stops with
`search_end` at its last character. -/
theorem scan_search_plain (S T : List Char) (hS : S ≠ [])
    (hplain : ∀ c ∈ S, c ≠ '/' ∧ c ≠ '\\') :
    parse_sed_expression.scan ('s' :: '/' :: (S ++ '/' :: T)) 2 =
      Except.ok (some (S.length + 1)) := by
  rcases List.eq_nil_or_concat S with hnil | ⟨init, last, hcat⟩
  · exact absurd hnil hS
  · rw [List.concat_eq_append] at hcat
    subst hcat
    have hinit : ∀ c ∈ init, c ≠ '/' ∧ c ≠ '\\' :=
      fun c hc => hplain c (List.mem_append_left _ hc)
    have hlast := hplain last (List.mem_append_right _ (List.mem_singleton_self last))
    have hrun := scan_run_plain init hinit ['s', '/'] last ('/' :: T) hlast.1
    have hstop := scan_stop_plain (['s', '/'] ++ init) last T hlast.2
    have e : 's' :: '/' :: (init ++ [last] ++ '/' :: T) =
        ['s', '/'] ++ init ++ last :: '/' :: T := by simp
    have e2 : ['s', '/'].length + init.length = (['s', '/'] ++ init).length := by
      simp only [List.length_append, List.length_cons, List.length_nil]
    rw [e2] at hrun
    rw [e]
    exact (hrun.trans hstop).trans (by
      congr 2
      (simp only [List.length_append, List.length_cons, List.length_nil]; omega))

/-- The loop over a search part without slash or backslash that no slash
follows runs into `at` beyond the end of the string. -/
theorem scan_unterminated (S : List Char) (hS : S ≠ [])
    (hplain : ∀ c ∈ S, c ≠ '/' ∧ c ≠ '\\') :
    parse_sed_expression.scan ('s' :: '/' :: S) 2 =
      Except.error std.exception.out_of_range := by
  rcases List.eq_nil_or_concat S with hnil | ⟨init, last, hcat⟩
  · exact absurd hnil hS
  · rw [List.concat_eq_append] at hcat
    subst hcat
    have hlast := hplain last (List.mem_append_right _ (List.mem_singleton_self last))
    cases init with
    | nil =>
      exact scan_end_plain ['s', '/'] last hlast.2
    | cons a init2 =>
      rcases List.eq_nil_or_concat (a :: init2) with hnil | ⟨pre2, b, hcat2⟩
      · cases hnil
      · rw [List.concat_eq_append] at hcat2
        rw [hcat2]
        have hpl : ∀ c ∈ pre2 ++ [b], c ≠ '/' ∧ c ≠ '\\' := by
          intro c hc
          rw [← hcat2] at hc
          exact hplain c (List.mem_append_left _ hc)
        have hpre2 : ∀ c ∈ pre2 ++ [b], c ≠ '/' ∧ c ≠ '\\' := hpl
        have hrun := scan_run_plain (pre2 ++ [b]) hpre2 ['s', '/'] last [] hlast.1
        have hend := scan_end_plain (['s', '/'] ++ (pre2 ++ [b])) last hlast.2
        have e : 's' :: '/' :: (pre2 ++ [b] ++ [last]) =
            ['s', '/'] ++ (pre2 ++ [b]) ++ [last] := by simp
        have e2 : ['s', '/'].length + (pre2 ++ [b]).length =
            (['s', '/'] ++ (pre2 ++ [b])).length := by
          simp only [List.length_append, List.length_cons, List.length_nil]
        rw [e2] at hrun
        rw [e]
        exact hrun.trans hend

/-- The loop over a search part with one escaped slash stops with `search_end`
at the last character of the whole search part. -/
theorem scan_search_escape (S1 S2 T : List Char)
    (h1 : ∀ c ∈ S1, c ≠ '/' ∧ c ≠ '\\') (h2 : ∀ c ∈ S2, c ≠ '/' ∧ c ≠ '\\') :
    parse_sed_expression.scan ('s' :: '/' :: ((S1 ++ '\\' :: '/' :: S2) ++ '/' :: T)) 2 =
      Except.ok (some ((S1 ++ '\\' :: '/' :: S2).length + 1)) := by
  have hrun := scan_run_plain S1 h1 ['s', '/'] '\\' ('/' :: (S2 ++ '/' :: T)) (by decide)
  have e : 's' :: '/' :: ((S1 ++ '\\' :: '/' :: S2) ++ '/' :: T) =
      ['s', '/'] ++ S1 ++ '\\' :: '/' :: (S2 ++ '/' :: T) := by simp
  have e2 : ['s', '/'].length + S1.length = (['s', '/'] ++ S1).length := by
    simp only [List.length_append, List.length_cons, List.length_nil]
  rw [e2] at hrun
  rw [e]
  refine hrun.trans ?_
  rcases List.eq_nil_or_concat S2 with hnil | ⟨init, last, hcat⟩
  · subst hnil
    have hstop := scan_stop_escape (['s', '/'] ++ S1) '/' T
    simp only [List.nil_append] at hstop ⊢
    rw [hstop]
    congr 2
    (simp only [List.length_append, List.length_cons, List.length_nil]; omega)
  · rw [List.concat_eq_append] at hcat
    subst hcat
    have hinit : ∀ c ∈ init, c ≠ '/' ∧ c ≠ '\\' :=
      fun c hc => h2 c (List.mem_append_left _ hc)
    have hlast := h2 last (List.mem_append_right _ (List.mem_singleton_self last))
    have hb : ∀ tl : List Char, ∃ b tl2, init ++ [last] ++ '/' :: tl = b :: tl2 ∧ b ≠ '/' := by
      intro tl
      cases init with
      | nil => exact ⟨last, '/' :: tl, by simp, hlast.1⟩
      | cons a init2 =>
        exact ⟨a, init2 ++ [last] ++ '/' :: tl, by simp,
          (hinit a (List.mem_cons_self a init2)).1⟩
    obtain ⟨b, tl2, hbeq, hbne⟩ := hb T
    have hstep := scan_step_escape (['s', '/'] ++ S1) '/' b tl2 hbne
    rw [hbeq, hstep, ← hbeq]
    have hrun2 := scan_run_plain init hinit (['s', '/'] ++ S1 ++ ['\\', '/']) last ('/' :: T)
      hlast.1
    have hstop := scan_stop_plain (['s', '/'] ++ S1 ++ ['\\', '/'] ++ init) last T hlast.2
    have e3 : ['s', '/'] ++ S1 ++ '\\' :: '/' :: (init ++ [last] ++ '/' :: T) =
        ['s', '/'] ++ S1 ++ ['\\', '/'] ++ init ++ last :: '/' :: T := by simp
    have e4 : (['s', '/'] ++ S1).length + 2 = (['s', '/'] ++ S1 ++ ['\\', '/']).length := by
      simp only [List.length_append, List.length_cons, List.length_nil]
    rw [e3, e4, hrun2]
    have e5 : (['s', '/'] ++ S1 ++ ['\\', '/']).length + init.length =
        (['s', '/'] ++ S1 ++ ['\\', '/'] ++ init).length := by
      simp only [List.length_append, List.length_cons, List.length_nil]
    rw [e5, hstop]
    congr 2
    (simp only [List.length_append, List.length_cons, List.length_nil]; omega)

/-- An unterminated search part without slash or backslash makes the function
throw `std::out_of_range`. -/
theorem parse_sed_expression_unterminated (S search replace : List Char) (hS : S ≠ [])
    (hplain : ∀ c ∈ S, c ≠ '/' ∧ c ≠ '\\') :
    parse_sed_expression ('s' :: '/' :: S) search replace =
      Except.error std.exception.out_of_range := by
  have hlen : ¬ (('s' :: '/' :: S).length ≤ 2) := by
    cases S with
    | nil => exact absurd rfl hS
    | cons a l => simp
  have h0 : string_at ('s' :: '/' :: S) 0 = Except.ok 's' := rfl
  have h1 : string_at ('s' :: '/' :: S) 1 = Except.ok '/' := by simp [string_at]
  unfold parse_sed_expression
  rw [if_neg hlen]
  simp only [bind, Except.bind, h0, h1, scan_unterminated S hS hplain, ne_eq,
    not_true_eq_false, if_false]

/-- C25: for every non-empty `S` without slash or backslash and every `R`,
parsing `s/S/R/` (a string, so of a length within `size_type`) returns true
and sets `search` to `S` and `replace` to `R`. -/
theorem C25_parse_sed_expression (S R search replace : List Char) (hS : S ≠ [])
    (hplain : ∀ c ∈ S, c ≠ '/' ∧ c ≠ '\\')
    (hlen : (['s', '/'] ++ S ++ ['/'] ++ R ++ ['/']).length < size_type_modulus) :
    parse_sed_expression (['s', '/'] ++ S ++ ['/'] ++ R ++ ['/']) search replace =
      Except.ok (true, S, R) := by
  have e : ['s', '/'] ++ S ++ ['/'] ++ R ++ ['/'] = 's' :: '/' :: (S ++ '/' :: (R ++ ['/'])) := by
    simp
  rw [e] at hlen ⊢
  rw [parse_sed_expression_of_scan S (R ++ ['/']) search replace hS hlen
    (scan_search_plain S (R ++ ['/']) hS hplain)]
  simp

/-- C25 at the input `s/abc/def/`. -/
theorem C25_parse_sed_expression_witness :
    parse_sed_expression (['s', '/'] ++ ['a', 'b', 'c'] ++ ['/'] ++ ['d', 'e', 'f'] ++ ['/'])
      [] [] = Except.ok (true, ['a', 'b', 'c'], ['d', 'e', 'f']) :=
  C25_parse_sed_expression ['a', 'b', 'c'] ['d', 'e', 'f'] [] [] (by decide) (by decide)
    (by decide)

/-- C26 fails: on the unterminated input `s/abc` (and already on `s/a`) the
loop reads `input.at(search_end)` one position beyond the end of the string,
and the function leaves with the exception `std::out_of_range` instead of
returning false; it returns false where the string ends right after a
backslash, as in `s/a` followed by a backslash. -/
theorem C26_unterminated_throws :
    parse_sed_expression ['s', '/', 'a', 'b', 'c'] [] [] =
      Except.error std.exception.out_of_range ∧
    parse_sed_expression ['s', '/', 'a'] [] [] = Except.error std.exception.out_of_range ∧
    parse_sed_expression ['s', '/', 'a', '\\'] [] [] = Except.ok (false, [], []) := by
  refine ⟨parse_sed_expression_unterminated ['a', 'b', 'c'] [] [] (by decide) (by decide),
    parse_sed_expression_unterminated ['a'] [] [] (by decide) (by decide), ?_⟩
  have hs : parse_sed_expression.scan ['s', '/', 'a', '\\'] 2 = Except.ok none := by
    have hstep := scan_step_plain ['s', '/'] 'a' '\\' [] (by decide) (by decide)
    change parse_sed_expression.scan ['s', '/', 'a', '\\'] 2 =
      parse_sed_expression.scan ['s', '/', 'a', '\\'] 3 at hstep
    rw [hstep, parse_sed_expression.scan]
    simp [string_at]
  unfold parse_sed_expression
  simp [string_at, bind, Except.bind, pure, Except.pure, hs]

/-- C27: the trailing slash is optional: for every non-empty `S` without slash
or backslash and every `R` that does not end in a slash, parsing `s/S/R`
returns true with `search = S` and `replace = R`, the result of parsing
`s/S/R/`. -/
theorem C27_trailing_slash_optional (S R search replace : List Char) (hS : S ≠ [])
    (hplain : ∀ c ∈ S, c ≠ '/' ∧ c ≠ '\\') (hR : R.getLast? ≠ some '/')
    (hlen : (['s', '/'] ++ S ++ ['/'] ++ R ++ ['/']).length < size_type_modulus) :
    parse_sed_expression (['s', '/'] ++ S ++ ['/'] ++ R) search replace =
      Except.ok (true, S, R) ∧
    parse_sed_expression (['s', '/'] ++ S ++ ['/'] ++ R) search replace =
      parse_sed_expression (['s', '/'] ++ S ++ ['/'] ++ R ++ ['/']) search replace := by
  have e1 : ['s', '/'] ++ S ++ ['/'] ++ R = 's' :: '/' :: (S ++ '/' :: R) := by simp
  have e2 : ['s', '/'] ++ S ++ ['/'] ++ R ++ ['/'] =
      's' :: '/' :: (S ++ '/' :: (R ++ ['/'])) := by simp
  have hlen1 : ('s' :: '/' :: (S ++ '/' :: R)).length < size_type_modulus := by
    rw [e2] at hlen
    simp only [List.length_cons, List.length_append, List.length_nil] at hlen ⊢
    omega
  have h1 : parse_sed_expression ('s' :: '/' :: (S ++ '/' :: R)) search replace =
      Except.ok (true, S, R) := by
    rw [parse_sed_expression_of_scan S R search replace hS hlen1
      (scan_search_plain S R hS hplain), if_neg hR]
  have h2 : parse_sed_expression ('s' :: '/' :: (S ++ '/' :: (R ++ ['/']))) search replace =
      Except.ok (true, S, R) := by
    rw [e2] at hlen
    rw [parse_sed_expression_of_scan S (R ++ ['/']) search replace hS hlen
      (scan_search_plain S (R ++ ['/']) hS hplain)]
    simp
  rw [e2, e1, h1, h2]
  exact ⟨rfl, rfl⟩

/-- C27 at the input `s/abc/def`. -/
theorem C27_trailing_slash_optional_witness :
    parse_sed_expression (['s', '/'] ++ ['a', 'b', 'c'] ++ ['/'] ++ ['d', 'e', 'f']) [] [] =
      Except.ok (true, ['a', 'b', 'c'], ['d', 'e', 'f']) :=
  (C27_trailing_slash_optional ['a', 'b', 'c'] ['d', 'e', 'f'] [] [] (by decide) (by decide)
    (by decide) (by decide)).1

/-- C28: an escaped slash does not end the search part: for all `S1` and `S2`
without slash or backslash, empty or not, and every `R`, parsing
`s/S1\/S2/R/` returns true with `search` the part between the outer slashes,
escape included, and `replace = R`. -/
theorem C28_escaped_slash (S1 S2 R search replace : List Char)
    (h1 : ∀ c ∈ S1, c ≠ '/' ∧ c ≠ '\\') (h2 : ∀ c ∈ S2, c ≠ '/' ∧ c ≠ '\\')
    (hlen : (['s', '/'] ++ S1 ++ ['\\', '/'] ++ S2 ++ ['/'] ++ R ++ ['/']).length <
      size_type_modulus) :
    parse_sed_expression (['s', '/'] ++ S1 ++ ['\\', '/'] ++ S2 ++ ['/'] ++ R ++ ['/'])
      search replace = Except.ok (true, S1 ++ ['\\', '/'] ++ S2, R) := by
  have e : ['s', '/'] ++ S1 ++ ['\\', '/'] ++ S2 ++ ['/'] ++ R ++ ['/'] =
      's' :: '/' :: ((S1 ++ '\\' :: '/' :: S2) ++ '/' :: (R ++ ['/'])) := by simp
  have e2 : S1 ++ ['\\', '/'] ++ S2 = S1 ++ '\\' :: '/' :: S2 := by simp
  rw [e] at hlen ⊢
  rw [e2, parse_sed_expression_of_scan (S1 ++ '\\' :: '/' :: S2) (R ++ ['/']) search replace
    (by simp) hlen (scan_search_escape S1 S2 (R ++ ['/']) h1 h2)]
  simp

/-- C28 at the input `s/a\/b/c/` and, with both parts empty, at `s/\//c/`. -/
theorem C28_escaped_slash_witness :
    parse_sed_expression (['s', '/'] ++ ['a'] ++ ['\\', '/'] ++ ['b'] ++ ['/'] ++ ['c'] ++ ['/'])
      [] [] = Except.ok (true, ['a'] ++ ['\\', '/'] ++ ['b'], ['c']) ∧
    parse_sed_expression (['s', '/'] ++ [] ++ ['\\', '/'] ++ [] ++ ['/'] ++ ['c'] ++ ['/'])
      [] [] = Except.ok (true, [] ++ ['\\', '/'] ++ [], ['c']) :=
  ⟨C28_escaped_slash ['a'] ['b'] ['c'] [] [] (by decide) (by decide) (by decide),
   C28_escaped_slash [] [] ['c'] [] [] (by decide) (by decide) (by decide)⟩

/-- C29: the function returns false, leaving `search` and `replace` as they
are, for every input of length at most 2 and for every input that does not
begin with the two characters `s` and `/`. -/
theorem C29_rejects_short_or_unprefixed (input search replace : List Char)
    (h : input.length ≤ 2 ∨ input.take 2 ≠ ['s', '/']) :
    parse_sed_expression input search replace = Except.ok (false, search, replace) := by
  unfold parse_sed_expression
  by_cases hlen : input.length ≤ 2
  · rw [if_pos hlen]
    rfl
  · rw [if_neg hlen]
    have hp : input.take 2 ≠ ['s', '/'] := by
      rcases h with h | h
      · exact absurd h hlen
      · exact h
    match input, hlen, hp with
    | [], hlen, _ => exact absurd (Nat.zero_le 2) hlen
    | [_], hlen, _ => exact absurd (by simp) hlen
    | a :: b :: tl, _, hp =>
      have h0 : string_at (a :: b :: tl) 0 = Except.ok a := rfl
      have h1 : string_at (a :: b :: tl) 1 = Except.ok b := by simp [string_at]
      simp only [bind, Except.bind, h0, h1]
      by_cases ha : 's' = a
      · subst ha
        have hb : '/' ≠ b := by
          intro hb
          subst hb
          exact hp rfl
        simp only [ne_eq, not_true_eq_false, if_false, hb, not_false_eq_true, if_true]
        rfl
      · simp only [ne_eq, ha, not_false_eq_true, if_true]
        rfl

/-- C29 at the input `s/` of length 2 and at the input `x/abc/def/`. -/
theorem C29_rejects_short_or_unprefixed_witness :
    parse_sed_expression ['s', '/'] ['o', 'l', 'd'] [] =
      Except.ok (false, ['o', 'l', 'd'], []) ∧
    parse_sed_expression ['x', '/', 'a', 'b', 'c', '/', 'd', 'e', 'f', '/'] [] [] =
      Except.ok (false, [], []) :=
  ⟨C29_rejects_short_or_unprefixed ['s', '/'] ['o', 'l', 'd'] [] (Or.inl (by decide)),
   C29_rejects_short_or_unprefixed ['x', '/', 'a', 'b', 'c', '/', 'd', 'e', 'f', '/'] [] []
    (Or.inr (by decide))⟩

/-- Where the loop ends with `break`, `search_end` has not moved back beyond
its start and the character after it is a slash. -/
theorem scan_some (input : List Char) :
    ∀ (n k se : Nat), input.length - k ≤ n →
      parse_sed_expression.scan input k = Except.ok (some se) →
      k ≤ se ∧ string_at input (se + 1) = Except.ok '/' := by
  intro n
  induction n with
  | zero =>
    intro k se hn h
    rw [parse_sed_expression.scan] at h
    split at h
    · cases h
    · have hk : input.length ≤ k := by omega
      rw [string_at_length input k hk] at h
      cases h
  | succ n ih =>
    intro k se hn h
    rw [parse_sed_expression.scan] at h
    split at h
    · cases h
    · split at h
      · cases h
      · split at h
        · split at h
          · cases h
          · split at h
            · cases h
            · rename_i d hd
              split at h
              · rename_i hslash
                injection h with h
                injection h with h
                subst h
                subst hslash
                exact ⟨by omega, by simpa using hd⟩
              · have hlt : k + 2 < input.length := by
                  by_contra hge
                  rw [string_at_length input (k + 2) (by omega)] at hd
                  cases hd
                have := ih (k + 2) se (by omega) h
                exact ⟨by omega, this.2⟩
        · split at h
          · cases h
          · rename_i d hd
            split at h
            · rename_i hslash
              injection h with h
              injection h with h
              subst h
              subst hslash
              exact ⟨by omega, by simpa using hd⟩
            · have hlt : k + 1 < input.length := by
                by_contra hge
                rw [string_at_length input (k + 1) (by omega)] at hd
                cases hd
              have := ih (k + 1) se (by omega) h
              exact ⟨by omega, this.2⟩

/-- C33: whenever the function returns true on a string (of a length within
`size_type`), the outputs reconstruct the input: the input is
`s/` + `search` + `/` + `replace`, or that followed by one more slash. -/
theorem C33_reconstructs_input (input search replace search2 replace2 : List Char)
    (hlen : input.length < size_type_modulus)
    (h : parse_sed_expression input search replace = Except.ok (true, search2, replace2)) :
    input = ['s', '/'] ++ search2 ++ ['/'] ++ replace2 ∨
    input = ['s', '/'] ++ search2 ++ ['/'] ++ replace2 ++ ['/'] := by
  by_cases hle : input.length ≤ 2
  · simp [parse_sed_expression, hle, pure, Except.pure] at h
  · match input, hlen, h, hle with
    | [], _, _, hle => exact absurd (Nat.zero_le 2) hle
    | [_], _, _, hle => exact absurd (by simp) hle
    | a :: b :: rest, hlen, h, hle =>
      have h0 : string_at (a :: b :: rest) 0 = Except.ok a := rfl
      have h1 : string_at (a :: b :: rest) 1 = Except.ok b := by simp [string_at]
      by_cases ha : 's' = a
      · by_cases hb : '/' = b
        · subst ha
          subst hb
          cases hs : parse_sed_expression.scan ('s' :: '/' :: rest) 2 with
          | error e =>
            unfold parse_sed_expression at h
            rw [if_neg hle] at h
            simp [bind, Except.bind, h0, h1, hs] at h
          | ok r =>
            cases r with
            | none =>
              unfold parse_sed_expression at h
              rw [if_neg hle] at h
              simp [bind, Except.bind, h0, h1, hs, pure, Except.pure] at h
            | some se =>
              obtain ⟨hse, hat⟩ := scan_some _ _ 2 se (le_refl _) hs
              have hget : rest[se - 1]? = some '/' := by
                have hat2 : ('s' :: '/' :: rest)[se + 1]? = some '/' := by
                  simp only [string_at] at hat
                  split at hat
                  · rename_i c hc
                    injection hat with hat
                    rw [hc, hat]
                  · cases hat
                have e : se + 1 = (se - 1) + 1 + 1 := by omega
                rw [e] at hat2
                simpa using hat2
              obtain ⟨hlt, hval⟩ := List.getElem?_eq_some_iff.mp hget
              have hrest : rest = rest.take (se - 1) ++ '/' :: rest.drop se := by
                have h1 := (List.take_append_drop (se - 1) rest).symm
                have h2 : rest.drop (se - 1) = rest[se - 1] :: rest.drop (se - 1 + 1) :=
                  List.drop_eq_getElem_cons hlt
                rw [h2, hval] at h1
                have e : se - 1 + 1 = se := by omega
                rw [e] at h1
                exact h1
              have hSrlen : (rest.take (se - 1)).length = se - 1 := by
                rw [List.length_take]
                omega
              have hSr : rest.take (se - 1) ≠ [] := by
                intro hnil
                rw [hnil] at hSrlen
                simp at hSrlen
                omega
              generalize hSrdef : rest.take (se - 1) = Sr at hrest hSrlen hSr
              generalize hTdef : rest.drop se = T at hrest
              subst hrest
              have hscan : parse_sed_expression.scan ('s' :: '/' :: (Sr ++ '/' :: T)) 2 =
                  Except.ok (some (Sr.length + 1)) := by
                rw [hs, hSrlen]
                congr 2
                omega
              rw [parse_sed_expression_of_scan Sr T search replace hSr hlen hscan] at h
              injection h with h
              injection h with _ h
              injection h with hsearch hreplace
              subst hsearch
              by_cases hT : T.getLast? = some '/'
              · rw [if_pos hT] at hreplace
                subst hreplace
                right
                have hT2 : T = T.dropLast ++ ['/'] := by
                  rcases List.eq_nil_or_concat T with hnil | ⟨T2, z, hcat⟩
                  · rw [hnil] at hT
                    simp at hT
                  · rw [List.concat_eq_append] at hcat
                    subst hcat
                    simp at hT
                    subst hT
                    simp
                calc 's' :: '/' :: (Sr ++ '/' :: T)
                    = ['s', '/'] ++ Sr ++ ['/'] ++ T := by simp
                  _ = ['s', '/'] ++ Sr ++ ['/'] ++ (T.dropLast ++ ['/']) := by rw [← hT2]
                  _ = ['s', '/'] ++ Sr ++ ['/'] ++ T.dropLast ++ ['/'] := by simp
              · rw [if_neg hT] at hreplace
                subst hreplace
                left
                simp
        · unfold parse_sed_expression at h
          rw [if_neg hle] at h
          subst ha
          simp [bind, Except.bind, h0, h1, hb, pure, Except.pure] at h
      · unfold parse_sed_expression at h
        rw [if_neg hle] at h
        simp [bind, Except.bind, h0, ha, pure, Except.pure] at h

/-- C33 at the input `s//x/`, whose search part begins with a slash. -/
theorem C33_reconstructs_input_witness :
    ['s', '/', '/', 'x', '/'] = ['s', '/'] ++ ['/', 'x'] ++ ['/'] ++ [] ∨
    ['s', '/', '/', 'x', '/'] = ['s', '/'] ++ ['/', 'x'] ++ ['/'] ++ [] ++ ['/'] :=
  C33_reconstructs_input ['s', '/', '/', 'x', '/'] [] [] ['/', 'x'] [] (by decide) (by
    have hscan : parse_sed_expression.scan ('s' :: '/' :: (['/', 'x'] ++ '/' :: [])) 2 =
        Except.ok (some ((['/', 'x'] : List Char).length + 1)) := by
      have h1 := scan_step_plain ['s', '/'] '/' 'x' ['/'] (by decide) (by decide)
      have h2 := scan_stop_plain ['s', '/', '/'] 'x' [] (by decide)
      exact h1.trans h2
    exact parse_sed_expression_of_scan ['/', 'x'] [] [] [] (by decide) (by decide) hscan)

end hpx.util
